import Mathlib

/-!
# Verification of the Vib3-CORE betting decision engine

Shallow embedding of the geometric betting decision core:

* `BettingGeometryEngine` (channel mapping, portfolio geometry,
  attractor detection, engine-side allocations, state queries),
* `BotDecisionInterface` (decision assembly, allocation capping,
  cooldown finalization, empty decision, removal),
* `MarketTopology` (snapshots, persistence tracking, cluster and hole
  detection, visualization export).

JavaScript numbers are modelled as `ℚ`; where a computation can produce
`NaN` (the un-guarded channel mapper) we use `Option ℚ` with `none`
standing for `NaN`.  The transcendental library calls `Math.exp`,
`Math.log` and `Math.sqrt` are modelled as explicit function parameters
(`expFn`, `logFn`, `sqrtFn`): every theorem below quantifies over them,
so nothing proved depends on their values.  `Math.sqrt` is interpreted
as `Real.sqrt` in the real-valued crystallization model, where the
claims need its algebraic properties.  Wall-clock timestamps
(`Date.now()`) are explicit `ℚ` arguments.  Rotor/rotation values
(`DataBrain`, `IsoclinicPair`) are consumed only by the visualization
layer and are not part of any verified observation, so the geometry
records omit them.
-/

namespace Vib3

/-- JavaScript `Math.max` on two non-`NaN` numbers. -/
def jsMax (a b : ℚ) : ℚ := max a b

/-- JavaScript `Math.min` on two non-`NaN` numbers. -/
def jsMin (a b : ℚ) : ℚ := min a b

/-- A JavaScript number that may be `NaN`: `none` models `NaN`,
`some q` a finite number.  (Infinities do not arise in the modelled
code paths.) -/
abbrev JNum := Option ℚ

namespace JNum

/-- Subtraction; `NaN` propagates. -/
def sub : JNum → JNum → JNum
  | some a, some b => some (a - b)
  | _, _ => none

/-- Addition; `NaN` propagates. -/
def add : JNum → JNum → JNum
  | some a, some b => some (a + b)
  | _, _ => none

/-- Multiplication; `NaN` propagates.  (The modelled code never
multiplies an infinity by zero, the only other `NaN` source.) -/
def mul : JNum → JNum → JNum
  | some a, some b => some (a * b)
  | _, _ => none

/-- JavaScript `Math.max`: returns `NaN` if either argument is `NaN`. -/
def jmax : JNum → JNum → JNum
  | some a, some b => some (max a b)
  | _, _ => none

/-- JavaScript `Math.min`: returns `NaN` if either argument is `NaN`. -/
def jmin : JNum → JNum → JNum
  | some a, some b => some (min a b)
  | _, _ => none

/-- Division by a fixed nonzero rational constant; `NaN` propagates. -/
def divC (a : JNum) (c : ℚ) : JNum := a.map (· / c)

/-- Negation; `NaN` propagates. -/
def neg (a : JNum) : JNum := a.map (- ·)

/-- Models `Math.exp`, modelled by an explicit function parameter `expFn`
(`Math.exp` maps every finite float to a non-`NaN` value, and `NaN`
to `NaN`). -/
def jexp (expFn : ℚ → ℚ) : JNum → JNum
  | some a => some (expFn a)
  | none => none

end JNum

/-! ## Decision objects (`BotDecisionInterface`)

`DECISION_TYPE` and `SIGNAL_STRENGTH` string enums, the decision
record, and the decision-history entries used by cooldown logic. -/

/-- Models `DECISION_TYPE` from `BotDecisionInterface.js`. -/
inductive DecisionType where
  | EXECUTE | PREPARE | REDUCE | WAIT | PASS
  deriving DecidableEq, Repr

/-- Models `SIGNAL_STRENGTH` from `BotDecisionInterface.js`. -/
inductive SignalStrength where
  | STRONG | MODERATE | WEAK | NOISE
  deriving DecidableEq, Repr

/-- The strings pushed onto `decision.reasons`.  The interpolated
numeric text (`toFixed` formatting) is not modelled; each distinct
message template is one constructor, carrying the interpolated value
where one occurs. -/
inductive Reason where
  /-- Models `'No opportunities processed'` -/
  | noOpportunitiesProcessed
  /-- Models `'No valid allocations available'` -/
  | noValidAllocations
  /-- Models `'Cooling down - multiple recent executions'` -/
  | coolingDown
  /-- Models `` `Confidence ...% too low for execution` `` -/
  | confidenceTooLow (c : ℚ)
  /-- any other message (attractor/crystallization/topology text) -/
  | other (tag : String)
  deriving DecidableEq, Repr

/-- A final allocation as pushed by
`BotDecisionInterface._calculateAllocations`. -/
structure FinalAllocation where
  gameId : String
  fraction : ℚ
  /-- Models `Math.round(bankroll * fraction * 100) / 100` -/
  amount : ℚ
  edge : ℚ
  confidence : ℚ
  energy : ℚ
  deriving DecidableEq, Repr

/-- Formatted (unscaled) channel values as returned by
`BettingGeometryEngine._formatChannels`. -/
structure FormattedChannels where
  edge : ℚ
  confidence : ℚ
  timePressure : ℚ
  correlation : ℚ
  efficiency : ℚ
  momentum : ℚ
  deriving DecidableEq, Repr

/-- The decision object assembled by
`BotDecisionInterface._generateDecision` / `_createEmptyDecision`.
The `topology` summary block is `null` in the empty decision; its
payload (betti/complexity/stability numbers) is modelled as an opaque
presence flag because no claim observes its contents. -/
structure Decision where
  timestamp : ℚ
  updateCount : ℕ
  execute : Bool
  type : DecisionType
  signalStrength : SignalStrength
  /-- attractor key string (`geomState.attractor`), `null` in the
  empty decision -/
  attractor : Option String
  attractorStrength : ℚ
  confidence : ℚ
  crystallization : ℚ
  portfolioEnergy : ℚ
  channels : Option FormattedChannels
  allocations : List FinalAllocation
  totalExposure : ℚ
  reasons : List Reason
  topologyPresent : Bool
  deriving DecidableEq, Repr

/-- One entry of `this.decisionHistory`
(see `BotDecisionInterface._recordDecision`). -/
structure HistoryEntry where
  timestamp : ℚ
  execute : Bool
  type : DecisionType
  totalExposure : ℚ
  confidence : ℚ
  deriving DecidableEq, Repr

/-- Models `this.decisionHistory.filter(d => d.execute && Date.now() - d.timestamp < 60000)`
from `BotDecisionInterface._finalizeDecision`. -/
def recentExecutions (history : List HistoryEntry) (now : ℚ) : List HistoryEntry :=
  history.filter (fun d => d.execute && decide (now - d.timestamp < 60000))

/-- Models `BotDecisionInterface._finalizeDecision`: downgrade an EXECUTE with
no allocations, apply the cooldown confidence discount, and downgrade
an EXECUTE whose confidence is below `0.4`.  `now` models the
`Date.now()` calls. -/
def finalizeDecision (d : Decision) (history : List HistoryEntry) (now : ℚ) : Decision :=
  -- Must have allocations to execute
  let d1 :=
    if d.execute && decide (d.allocations.length = 0) then
      { d with execute := false, type := DecisionType.WAIT,
               reasons := d.reasons ++ [Reason.noValidAllocations] }
    else d
  -- Final confidence adjustment based on history
  let recents := recentExecutions history now
  let d2 :=
    if recents.length > 3 then
      { d1 with reasons := d1.reasons ++ [Reason.coolingDown],
                confidence := d1.confidence * (8/10) }
    else d1
  -- Confidence threshold for execution
  if d2.execute && decide (d2.confidence < 4/10) then
    { d2 with execute := false, type := DecisionType.PREPARE,
              reasons := d2.reasons ++ [Reason.confidenceTooLow d2.confidence] }
  else d2

/-- Models `BotDecisionInterface._createEmptyDecision`. -/
def createEmptyDecision (now : ℚ) : Decision :=
  { timestamp := now
    updateCount := 0
    execute := false
    type := DecisionType.WAIT
    signalStrength := SignalStrength.NOISE
    attractor := none
    attractorStrength := 0
    confidence := 0
    crystallization := 0
    portfolioEnergy := 0
    channels := none
    allocations := []
    totalExposure := 0
    reasons := [Reason.noOpportunitiesProcessed]
    topologyPresent := false }

/-! ## Engine-side allocations and the interface exposure cap -/

/-- A betting opportunity as supplied to
`BettingGeometryEngine.processOpportunity` (destructured fields). -/
structure OppIn where
  gameId : String
  modelProb : ℚ
  impliedProb : ℚ
  confidence : ℚ
  odds : ℚ
  betType : String
  deriving DecidableEq, Repr

/-- The 6-entry `Float32Array` of channel values (float rounding not
modelled). -/
structure Chan6 where
  c0 : ℚ  -- EDGE
  c1 : ℚ  -- CONFIDENCE (inverted)
  c2 : ℚ  -- TIME
  c3 : ℚ  -- CORRELATION
  c4 : ℚ  -- EFFICIENCY
  c5 : ℚ  -- MOMENTUM
  deriving DecidableEq, Repr

/-- A raw allocation as pushed by
`BettingGeometryEngine._calculateAllocations`. -/
structure EngineAllocation where
  gameId : String
  fraction : ℚ
  edge : ℚ
  confidence : ℚ
  energy : ℚ
  opportunity : OppIn
  deriving DecidableEq, Repr

/-- Stable insertion step for a descending sort keyed by `key`:
`a` passes `b` only when strictly larger, so equal keys keep their
original order (JavaScript `Array.prototype.sort` is stable). -/
def insertDescBy {α : Type} (key : α → ℚ) (a : α) : List α → List α
  | [] => [a]
  | b :: l => if key b < key a then a :: b :: l else b :: insertDescBy key a l

/-- Stable descending sort, modelling
`allocations.sort((a, b) => b.fraction - a.fraction)`. -/
def sortDescBy {α : Type} (key : α → ℚ) : List α → List α
  | [] => []
  | a :: l => insertDescBy key a (sortDescBy key l)

/-- JavaScript `Math.round` (ties toward `+∞`). -/
def jsRound (q : ℚ) : ℚ := ⌊q + 1/2⌋

/-- Configuration of `BotDecisionInterface` (defaulted fields of
`this.config`). -/
structure BotConfig where
  bankroll : ℚ := 10000
  minSignalStrength : ℚ := 6/10
  minCrystallization : ℚ := 5/10
  maxAllocations : ℕ := 5
  maxTotalExposure : ℚ := 15/100
  deriving Repr

/-- The exposure-capping loop of
`BotDecisionInterface._calculateAllocations`: each allocation is
clipped so the running `totalExposure` never passes
`maxTotalExposure`, and clipped fractions `≤ 0.001` are dropped.
Returns the pushed allocations and the final `totalExposure`
(starting from the accumulator `total`). -/
def allocationLoop (cfg : BotConfig) : List EngineAllocation → ℚ → List FinalAllocation × ℚ
  | [], total => ([], total)
  | a :: rest, total =>
    let fraction :=
      if total + a.fraction > cfg.maxTotalExposure then
        jsMax 0 (cfg.maxTotalExposure - total)
      else a.fraction
    if fraction > 1/1000 then
      let r := allocationLoop cfg rest (total + fraction)
      ({ gameId := a.gameId
         fraction := fraction
         amount := jsRound (cfg.bankroll * fraction * 100) / 100
         edge := a.edge
         confidence := a.confidence
         energy := a.energy } :: r.1, r.2)
    else allocationLoop cfg rest total

/-- Models `BotDecisionInterface._calculateAllocations`: early-return for
PASS/WAIT decisions, otherwise filter, sort descending, truncate to
`maxAllocations`, and run the exposure-capping loop from `0`.
Returns `(decision.allocations, decision.totalExposure)`. -/
def interfaceAllocations (cfg : BotConfig) (dtype : DecisionType)
    (raw : List EngineAllocation) : List FinalAllocation × ℚ :=
  if dtype = DecisionType.PASS ∨ dtype = DecisionType.WAIT then ([], 0)
  else
    allocationLoop cfg
      ((sortDescBy (fun a => a.fraction)
        (raw.filter (fun a => decide (a.fraction > 1/1000)))).take cfg.maxAllocations) 0

/-- Sum of the fractions of a list of final allocations. -/
def fractionSum (l : List FinalAllocation) : ℚ := (l.map (·.fraction)).sum

/-- A sample opportunity record used by concrete evaluations. -/
def sampleOpp : OppIn :=
  { gameId := "g1", modelProb := 56/100, impliedProb := 1/2,
    confidence := 7/10, odds := 100, betType := "moneyline" }

/-- Five raw allocations of `0.05` for the same game: their raw sum
`0.25` exceeds the default `maxTotalExposure = 0.15`. -/
def sameGameRaw : List EngineAllocation :=
  List.replicate 5
    { gameId := "g1", fraction := 5/100, edge := 6/100, confidence := 7/10,
      energy := 1/2, opportunity := sampleOpp }

/-! ## C5: the cooldown discount threshold -/

/-- A decision history holding exactly three executed decisions, all
within the last 60 seconds of `now = 1000`. -/
def threeRecentHistory : List HistoryEntry :=
  List.replicate 3
    { timestamp := 0, execute := true, type := DecisionType.EXECUTE,
      totalExposure := 5/100, confidence := 1/2 }

/-- A decision with confidence 1 entering `_finalizeDecision`. -/
def preCooldownDecision : Decision :=
  { timestamp := 1000, updateCount := 1, execute := false,
    type := DecisionType.PASS, signalStrength := SignalStrength.MODERATE,
    attractor := some "STABLE_EDGE", attractorStrength := 9/10,
    confidence := 1, crystallization := 1, portfolioEnergy := 1,
    channels := none, allocations := [], totalExposure := 0,
    reasons := [], topologyPresent := false }

/-! ## C4: the channel mapper (`BettingGeometryEngine._calculateChannels`)

Opportunity and context fields are arbitrary JavaScript values that may
be missing (`undefined`), `null`, `NaN`, or finite numbers.  ES6
destructuring defaults (`confidence = 0.5`, `minutesToClose = 60`, …)
replace only `undefined`; `null` coerces to `0` in arithmetic; `NaN`
propagates. -/

/-- A JavaScript field value feeding the channel mapper. -/
inductive JVal where
  | undef
  | jsNull
  | nan
  | num (q : ℚ)
  deriving DecidableEq, Repr

/-- ES6 destructuring default: replaces `undefined` only. -/
def JVal.withDefault (v d : JVal) : JVal :=
  match v with
  | .undef => d
  | v => v

/-- Numeric coercion as performed by JavaScript arithmetic:
`undefined → NaN`, `null → 0`, `NaN → NaN`. -/
def JVal.toJNum : JVal → JNum
  | .undef => none
  | .jsNull => some 0
  | .nan => none
  | .num q => some q

/-- Opportunity fields as destructured by `processOpportunity`. -/
structure OppJ where
  gameId : String
  modelProb : JVal
  impliedProb : JVal
  confidence : JVal
  odds : JVal
  betType : JVal
  deriving DecidableEq, Repr

/-- Context fields as destructured by `processOpportunity`. -/
structure CtxJ where
  minutesToClose : JVal
  correlatedExposure : JVal
  marketVolatility : JVal
  previousEdge : JVal
  deriving DecidableEq, Repr

/-- The 6-entry channel vector before any `NaN` is ruled out. -/
structure Chan6J where
  c0 : JNum  -- EDGE
  c1 : JNum  -- CONFIDENCE (inverted)
  c2 : JNum  -- TIME
  c3 : JNum  -- CORRELATION
  c4 : JNum  -- EFFICIENCY
  c5 : JNum  -- MOMENTUM
  deriving DecidableEq, Repr

/-- Channel 0: `Math.min(1, Math.max(0, edge * channelScales.edge))`. -/
def channel0 (edge : JNum) (edgeScale : ℚ) : JNum :=
  JNum.jmin (some 1) (JNum.jmax (some 0) (JNum.mul edge (some edgeScale)))

/-- Channel 1: `1 - Math.min(1, confidence)`. -/
def channel1 (confidence : JNum) : JNum :=
  JNum.sub (some (1 : ℚ)) (JNum.jmin (some 1) confidence)

/-- Channel 2: `Math.min(1, Math.exp(-minutesToClose / 20) * channelScales.time)`. -/
def channel2 (expFn : ℚ → ℚ) (minutes : JNum) (timeScale : ℚ) : JNum :=
  JNum.jmin (some 1)
    (JNum.mul (JNum.jexp expFn (JNum.neg (JNum.divC minutes 20))) (some timeScale))

/-- Channel 3: `Math.min(1, correlatedExposure)`. -/
def channel3 (corr : JNum) : JNum := JNum.jmin (some 1) corr

/-- Channel 4: `Math.min(1, marketVolatility)`. -/
def channel4 (vol : JNum) : JNum := JNum.jmin (some 1) vol

/-- Channel 5: neutral `0.5` when `previousEdge === null`, otherwise
`Math.min(1, Math.max(0, 0.5 + (edge - previousEdge) * 10))`. -/
def channel5 (edge : JNum) (prev : JVal) : JNum :=
  match prev with
  | .jsNull => some (1/2)
  | p =>
    JNum.jmin (some 1)
      (JNum.jmax (some 0)
        (JNum.add (some (1/2 : ℚ)) (JNum.mul (JNum.sub edge p.toJNum) (some 10))))

/-- Models `BettingGeometryEngine._calculateChannels`, preceded by the
destructuring defaults of `processOpportunity`
(`confidence = 0.5`, `minutesToClose = 60`, `correlatedExposure = 0`,
`marketVolatility = 0.5`, `previousEdge = null`). -/
def calculateChannels (expFn : ℚ → ℚ) (edgeScale timeScale : ℚ)
    (o : OppJ) (c : CtxJ) : Chan6J :=
  let edge := JNum.sub o.modelProb.toJNum o.impliedProb.toJNum
  { c0 := channel0 edge edgeScale
    c1 := channel1 ((o.confidence.withDefault (JVal.num (1/2))).toJNum)
    c2 := channel2 expFn ((c.minutesToClose.withDefault (JVal.num 60)).toJNum) timeScale
    c3 := channel3 ((c.correlatedExposure.withDefault (JVal.num 0)).toJNum)
    c4 := channel4 ((c.marketVolatility.withDefault (JVal.num (1/2))).toJNum)
    c5 := channel5 edge (c.previousEdge.withDefault JVal.jsNull) }

/-- An opportunity whose `modelProb` is `NaN` (all other fields sane). -/
def oppWithNaN : OppJ :=
  { gameId := "g1", modelProb := JVal.nan, impliedProb := JVal.num (1/2),
    confidence := JVal.num (7/10), odds := JVal.num 100,
    betType := JVal.num 0 }

/-- A context with all optional fields missing. -/
def ctxAllMissing : CtxJ :=
  { minutesToClose := JVal.undef, correlatedExposure := JVal.undef,
    marketVolatility := JVal.undef, previousEdge := JVal.undef }

/-- A fully-populated sane opportunity for concrete evaluations. -/
def sampleOppJ : OppJ :=
  { gameId := "g1", modelProb := JVal.num (56/100), impliedProb := JVal.num (1/2),
    confidence := JVal.num (7/10), odds := JVal.num 100, betType := JVal.num 0 }

/-! ## C6: attractor classification (`ATTRACTOR_STATES`,
`_matchAttractor`, `_detectAttractor`) -/

/-- The ad-hoc condition keys of an `ATTRACTOR_STATES` entry; a `none`
field is an absent key. -/
structure AttractorConditions where
  edgeMin : Option ℚ := none
  edgeMax : Option ℚ := none
  confidenceMin : Option ℚ := none
  confidenceMax : Option ℚ := none
  timeMin : Option ℚ := none
  timeMax : Option ℚ := none
  correlationMax : Option ℚ := none
  correlationMin : Option ℚ := none
  efficiencyMin : Option ℚ := none
  efficiencyMax : Option ℚ := none
  momentumMin : Option ℚ := none
  momentumMax : Option ℚ := none
  deriving DecidableEq, Repr

/-- One `ATTRACTOR_STATES` entry. -/
structure AttractorDef where
  name : String
  conditions : AttractorConditions
  action : String
  kellyMultiplier : ℚ
  deriving DecidableEq, Repr

/-- Models `ATTRACTOR_STATES.STABLE_EDGE`. -/
def stableEdge : AttractorDef :=
  { name := "Stable Edge"
    conditions := { edgeMin := some (3/100), confidenceMin := some (65/100),
                    timeMin := some 5, correlationMax := some (5/10),
                    efficiencyMin := some (3/10), momentumMin := some (-1/100) }
    action := "EXECUTE", kellyMultiplier := 1 }

/-- Models `ATTRACTOR_STATES.EMERGING_EDGE`. -/
def emergingEdge : AttractorDef :=
  { name := "Emerging Edge"
    conditions := { edgeMin := some (2/100), confidenceMin := some (50/100),
                    timeMin := some 15, correlationMax := some (7/10),
                    efficiencyMin := some (2/10), momentumMin := some 0 }
    action := "PREPARE", kellyMultiplier := 1/2 }

/-- Models `ATTRACTOR_STATES.CLOSING_WINDOW`. -/
def closingWindow : AttractorDef :=
  { name := "Closing Window"
    conditions := { edgeMin := some (2/100), confidenceMin := some (55/100),
                    timeMax := some 5, correlationMax := some (6/10),
                    efficiencyMin := some (2/10), momentumMin := some (-2/100) }
    action := "EXECUTE", kellyMultiplier := 3/4 }

/-- Models `ATTRACTOR_STATES.CORRELATED_CLUSTER`. -/
def correlatedCluster : AttractorDef :=
  { name := "Correlated Cluster"
    conditions := { edgeMin := some (25/1000), confidenceMin := some (55/100),
                    correlationMin := some (5/10) }
    action := "REDUCE", kellyMultiplier := 1/2 }

/-- Models `ATTRACTOR_STATES.EFFICIENT_MARKET`. -/
def efficientMarket : AttractorDef :=
  { name := "Efficient Market"
    conditions := { efficiencyMax := some (15/100) }
    action := "PASS", kellyMultiplier := 0 }

/-- Models `ATTRACTOR_STATES.DECAYING_EDGE`. -/
def decayingEdge : AttractorDef :=
  { name := "Decaying Edge"
    conditions := { momentumMax := some (-2/100) }
    action := "PASS", kellyMultiplier := 0 }

/-- Models `ATTRACTOR_STATES.UNSTABLE_CHAOS`. -/
def unstableChaos : AttractorDef :=
  { name := "Unstable Chaos"
    conditions := { confidenceMax := some (4/10) }
    action := "WAIT", kellyMultiplier := 0 }

/-- The 7 static attractor definitions in declaration order
(`Object.entries` iterates insertion order). -/
def attractorStates : List AttractorDef :=
  [stableEdge, emergingEdge, closingWindow, correlatedCluster,
   efficientMarket, decayingEdge, unstableChaos]

/-- One condition's contribution to `(matches, total)`:
`(0, 0)` when the key is absent, otherwise `total` 1 and `matches` 1
iff the test passes. -/
def countCond (c : Option ℚ) (test : ℚ → Bool) : ℕ × ℕ :=
  match c with
  | none => (0, 0)
  | some t => (if test t then 1 else 0, 1)

/-- Models `BettingGeometryEngine._matchAttractor`: the fraction of specified
conditions satisfied by the (un-scaled) channel values.  The reverse
mapping of the time channel uses `Math.log`, modelled by the parameter
`logFn`; scaling constants come from `config.channelScales`
(`edgeScale`, `timeScale`). -/
def matchAttractor (logFn : ℚ → ℚ) (edgeScale timeScale : ℚ)
    (ch : Chan6) (conds : AttractorConditions) : ℚ :=
  let edgeValue := ch.c0 / edgeScale
  let confValue := 1 - ch.c1
  let timeValue := -20 * logFn (ch.c2 / timeScale + 1/100)
  let momValue := (ch.c5 - 1/2) / 5
  let parts : List (ℕ × ℕ) :=
    [countCond conds.edgeMin (fun t => decide (edgeValue ≥ t)),
     countCond conds.edgeMax (fun t => decide (edgeValue ≤ t)),
     countCond conds.confidenceMin (fun t => decide (confValue ≥ t)),
     countCond conds.confidenceMax (fun t => decide (confValue ≤ t)),
     countCond conds.timeMin (fun t => decide (timeValue ≥ t)),
     countCond conds.timeMax (fun t => decide (timeValue ≤ t)),
     countCond conds.correlationMax (fun t => decide (ch.c3 ≤ t)),
     countCond conds.correlationMin (fun t => decide (ch.c3 ≥ t)),
     countCond conds.efficiencyMin (fun t => decide (ch.c4 ≥ t)),
     countCond conds.efficiencyMax (fun t => decide (ch.c4 ≤ t)),
     countCond conds.momentumMin (fun t => decide (momValue ≥ t)),
     countCond conds.momentumMax (fun t => decide (momValue ≤ t))]
  let hits := (parts.map Prod.fst).sum
  let total := (parts.map Prod.snd).sum
  if total > 0 then (hits : ℚ) / (total : ℚ) else 0

/-- The accumulator loop of `_detectAttractor`: strictly better
strength replaces the current best (so ties keep the earlier entry). -/
def detectLoop {α : Type} (f : α → ℚ) :
    List α → Option α → ℚ → Option α × ℚ
  | [], best, bestS => (best, bestS)
  | a :: rest, best, bestS =>
    if f a > bestS then detectLoop f rest (some a) (f a)
    else detectLoop f rest best bestS

/-- Models `BettingGeometryEngine._detectAttractor` on a live portfolio state:
fold the 7 attractor definitions with initial best `null`/`0`. -/
def detectAttractor (logFn : ℚ → ℚ) (edgeScale timeScale : ℚ)
    (ch : Chan6) : Option AttractorDef × ℚ :=
  detectLoop (fun a => matchAttractor logFn edgeScale timeScale ch a.conditions)
    attractorStates none 0

/-- Spec-side "earliest maximum" of `f` over a list (ties keep the
earlier element). -/
def specArgmax {α : Type} (f : α → ℚ) : List α → Option α
  | [] => none
  | a :: l =>
    match specArgmax f l with
    | none => some a
    | some b => if f b ≤ f a then some a else some b

/-! ## Engine state (`BettingGeometryEngine`): portfolio geometry,
engine-side allocations, `queryGeometricState`, `removeOpportunity`.

`Math.sqrt` (used by `Vec4.magnitude`) is modelled by the parameter
`sqrtFn`; the rotor-valued fields (`rotations`, `rotation`), consumed
only by the visualization layer, are omitted from the records. -/

/-- A 4-component vector (`Vec4.js`), generic over the scalar type. -/
structure Vec4 (α : Type) where
  x : α
  y : α
  z : α
  w : α
  deriving DecidableEq, Repr

/-- Componentwise sum (`Vec4.add`). -/
def Vec4.add {α : Type} [Add α] (a b : Vec4 α) : Vec4 α :=
  ⟨a.x + b.x, a.y + b.y, a.z + b.z, a.w + b.w⟩

/-- Scalar multiple (`Vec4.scale`). -/
def Vec4.scale {α : Type} [Mul α] (a : Vec4 α) (k : α) : Vec4 α :=
  ⟨a.x * k, a.y * k, a.z * k, a.w * k⟩

/-- Componentwise difference (`Vec4.subtract`). -/
def Vec4.sub {α : Type} [Sub α] (a b : Vec4 α) : Vec4 α :=
  ⟨a.x - b.x, a.y - b.y, a.z - b.z, a.w - b.w⟩

/-- Negation. -/
def Vec4.negate {α : Type} [Neg α] (a : Vec4 α) : Vec4 α :=
  ⟨-a.x, -a.y, -a.z, -a.w⟩

/-- Dot product (`Vec4.dot`). -/
def Vec4.dot {α : Type} [Mul α] [Add α] (a b : Vec4 α) : α :=
  a.x * b.x + a.y * b.y + a.z * b.z + a.w * b.w

/-- Models `Vec4.magnitude = Math.sqrt(dot v v)` with `Math.sqrt` modelled by
`sqrtFn`. -/
def magnitudeQ (sqrtFn : ℚ → ℚ) (v : Vec4 ℚ) : ℚ := sqrtFn (Vec4.dot v v)

/-- One entry of the per-game edge history
(`{ edge, time }` pushed by `_updateEdgeHistory`). -/
structure EdgeEntry where
  edge : ℚ
  time : ℚ
  deriving DecidableEq, Repr

/-- The geometry record stored per opportunity by
`processOpportunity` (rotor fields omitted). -/
structure OppGeom where
  gameId : String
  channels : Chan6
  position : Vec4 ℚ
  energy : ℚ
  timestamp : ℚ
  opportunity : OppIn
  deriving DecidableEq, Repr

/-- The portfolio-level state built by `_updatePortfolioGeometry`
(rotation omitted). -/
structure PortfolioGeom where
  position : Vec4 ℚ
  channels : Chan6
  energy : ℚ
  crystallization : ℚ
  opportunityCount : ℕ
  timestamp : ℚ
  deriving DecidableEq, Repr

/-- One pair's contribution to the alignment sum: cosine similarity
when the product of magnitudes is positive, else nothing added. -/
def alignTerm (sqrtFn : ℚ → ℚ) (p q : Vec4 ℚ) : ℚ :=
  let m := magnitudeQ sqrtFn p * magnitudeQ sqrtFn q
  if m > 0 then Vec4.dot p q / m else 0

/-- Sum of `alignTerm` over all unordered pairs (`i < j` double loop in
`_updatePortfolioGeometry`). -/
def alignPairSum (sqrtFn : ℚ → ℚ) : List (Vec4 ℚ) → ℚ
  | [] => 0
  | p :: rest => (rest.map (fun q => alignTerm sqrtFn p q)).sum + alignPairSum sqrtFn rest

/-- Componentwise channel sum. -/
def Chan6.add (a b : Chan6) : Chan6 :=
  ⟨a.c0 + b.c0, a.c1 + b.c1, a.c2 + b.c2, a.c3 + b.c3, a.c4 + b.c4, a.c5 + b.c5⟩

/-- Componentwise channel scaling. -/
def Chan6.scale (a : Chan6) (k : ℚ) : Chan6 :=
  ⟨a.c0 * k, a.c1 * k, a.c2 * k, a.c3 * k, a.c4 * k, a.c5 * k⟩

/-- The zero channel vector (`new Float32Array(6)`). -/
def Chan6.zero : Chan6 := ⟨0, 0, 0, 0, 0, 0⟩

/-- Models `BettingGeometryEngine._updatePortfolioGeometry`: `null` when no
opportunities, otherwise mean position and channels, energy of the
mean position, and crystallization (average pairwise cosine
similarity, `0` when fewer than 2 members). -/
def updatePortfolioGeometry (sqrtFn : ℚ → ℚ) (now : ℚ)
    (opps : List (String × OppGeom)) : Option PortfolioGeom :=
  if opps.length = 0 then none
  else
    let count : ℚ := (opps.length : ℚ)
    let combinedPosition :=
      ((opps.map (fun e => e.2.position)).foldl Vec4.add ⟨0, 0, 0, 0⟩).scale (1 / count)
    let combinedChannels :=
      ((opps.map (fun e => e.2.channels)).foldl Chan6.add Chan6.zero).scale (1 / count)
    let positions := opps.map (fun e => e.2.position)
    let crystallization :=
      if opps.length > 1 then
        let pairs : ℚ := count * (count - 1) / 2
        if pairs > 0 then alignPairSum sqrtFn positions / pairs else 0
      else 0
    some
      { position := combinedPosition
        channels := combinedChannels
        energy := magnitudeQ sqrtFn combinedPosition
        crystallization := crystallization
        opportunityCount := opps.length
        timestamp := now }

/-- Models `BettingGeometryEngine` mutable state (rotor/DataBrain state and
callbacks omitted; configuration is passed to the operations). -/
structure EngineState where
  opportunities : List (String × OppGeom)
  edgeHistory : List (String × List EdgeEntry)
  portfolioGeometry : Option PortfolioGeom
  currentAttractor : Option AttractorDef
  attractorStrength : ℚ
  deriving DecidableEq, Repr

/-- Models `_detectAttractor` including the null-portfolio branch
(`UNSTABLE_CHAOS`, strength 0). -/
def detectAttractorState (logFn : ℚ → ℚ) (edgeScale timeScale : ℚ)
    (pg : Option PortfolioGeom) : Option AttractorDef × ℚ :=
  match pg with
  | none => (some unstableChaos, 0)
  | some p => detectAttractor logFn edgeScale timeScale p.channels

/-- Models `BettingGeometryEngine._calculateAllocations`: per-opportunity
fraction from edge strength, Kelly multiplier, confidence and
correlation adjustments, capped into `[0, 0.05]`, sorted by fraction
descending. -/
def engineAllocations (edgeScale : ℚ) (currentAttractor : Option AttractorDef)
    (opps : List (String × OppGeom)) : List EngineAllocation :=
  match currentAttractor with
  | none => []
  | some att =>
    sortDescBy (fun a => a.fraction)
      (opps.map (fun e =>
        let edgeStrength := e.2.channels.c0 / edgeScale
        let confMult := 1 - e.2.channels.c1 * (1/2)
        let corrPenalty := 1 - e.2.channels.c3 * (3/10)
        { gameId := e.1
          fraction := min (5/100) (max 0 (edgeStrength * att.kellyMultiplier * confMult * corrPenalty))
          edge := edgeStrength
          confidence := 1 - e.2.channels.c1
          energy := e.2.energy
          opportunity := e.2.opportunity }))

/-- Models `BettingGeometryEngine._formatChannels`. -/
def formatChannels (edgeScale : ℚ) (ch : Chan6) : FormattedChannels :=
  { edge := ch.c0 / edgeScale
    confidence := 1 - ch.c1
    timePressure := ch.c2
    correlation := ch.c3
    efficiency := ch.c4
    momentum := (ch.c5 - 1/2) * 2 }

/-- The object returned by `queryGeometricState`.  The early
no-geometry return carries only `executable/action/reason/confidence/allocations`;
fields absent from one of the two shapes are `Option`s. -/
structure GeomQuery where
  executable : Bool
  action : String
  attractor : Option String
  attractorStrength : Option ℚ
  confidence : ℚ
  portfolioEnergy : Option ℚ
  crystallization : Option ℚ
  channels : Option FormattedChannels
  allocations : List EngineAllocation
  reason : Option String
  timestamp : Option ℚ
  deriving DecidableEq, Repr

/-- Models `BettingGeometryEngine.queryGeometricState`.  Read-only: it only
reads `currentAttractor`, `portfolioGeometry` and `opportunities`; the
`timestamp` field records `Date.now()` (`now`). -/
def queryGeometricState (edgeScale : ℚ) (st : EngineState) (now : ℚ) : GeomQuery :=
  match st.currentAttractor, st.portfolioGeometry with
  | some att, some pg =>
    { executable := decide (att.action = "EXECUTE" ∨ att.action = "REDUCE")
      action := att.action
      attractor := some att.name
      attractorStrength := some st.attractorStrength
      confidence := pg.crystallization * st.attractorStrength * (1 - pg.channels.c1)
      portfolioEnergy := some pg.energy
      crystallization := some pg.crystallization
      channels := some (formatChannels edgeScale pg.channels)
      allocations := engineAllocations edgeScale st.currentAttractor st.opportunities
      reason := none
      timestamp := some now }
  | _, _ =>
    { executable := false
      action := "WAIT"
      attractor := none
      attractorStrength := none
      confidence := 0
      portfolioEnergy := none
      crystallization := none
      channels := none
      allocations := []
      reason := some "No geometry available"
      timestamp := none }

/-- Association-list key removal, modelling `Map.delete` (the order of
the remaining entries is preserved). -/
def eraseKey {β : Type} (k : String) (l : List (String × β)) : List (String × β) :=
  l.filter (fun e => decide (e.1 ≠ k))

/-- Association-list key lookup, modelling `Map.get`. -/
def lookupKey {β : Type} (k : String) (l : List (String × β)) : Option β :=
  (l.find? (fun e => decide (e.1 = k))).map (fun e => e.2)

/-- Models `BettingGeometryEngine.removeOpportunity`: delete the game from
the opportunity map and the edge history, then recompute the portfolio
geometry and re-detect the attractor. -/
def removeOpportunityEngine (logFn sqrtFn : ℚ → ℚ) (edgeScale timeScale : ℚ)
    (now : ℚ) (st : EngineState) (gid : String) : EngineState :=
  let opps := eraseKey gid st.opportunities
  let pg := updatePortfolioGeometry sqrtFn now opps
  let det := detectAttractorState logFn edgeScale timeScale pg
  { opportunities := opps
    edgeHistory := eraseKey gid st.edgeHistory
    portfolioGeometry := pg
    currentAttractor := det.1
    attractorStrength := det.2 }

/-- Models `BettingGeometryEngine.clear`. -/
def clearEngine : EngineState :=
  { opportunities := []
    edgeHistory := []
    portfolioGeometry := none
    currentAttractor := none
    attractorStrength := 0 }

/-! ### C7: `queryGeometricState` called twice without an update -/

/-- A sample stored opportunity geometry. -/
def sampleOppGeom : OppGeom :=
  { gameId := "g1", channels := ⟨3/10, 3/10, 1/5, 1/10, 1/2, 1/2⟩,
    position := ⟨1/2, 0, 0, 0⟩, energy := 1/2, timestamp := 0,
    opportunity := sampleOpp }

/-- A sample portfolio geometry. -/
def samplePortfolio : PortfolioGeom :=
  { position := ⟨1/2, 0, 0, 0⟩, channels := ⟨3/10, 3/10, 1/5, 1/10, 1/2, 1/2⟩,
    energy := 1/2, crystallization := 1, opportunityCount := 1, timestamp := 0 }

/-- A live engine state (attractor detected, portfolio present). -/
def sampleEngineState : EngineState :=
  { opportunities := [("g1", sampleOppGeom)]
    edgeHistory := [("g1", [⟨3/10, 0⟩])]
    portfolioGeometry := some samplePortfolio
    currentAttractor := some stableEdge
    attractorStrength := 9/10 }

/-! ## MarketTopology (`MarketTopology.js`)

Persistence `death` uses the `Infinity` still-alive sentinel, modelled
by `QInf.inf`.  `Math.sqrt` inside the 4D cluster distance is the
`sqrtFn` parameter. -/

/-- A rational extended with the `Infinity` sentinel. -/
inductive QInf where
  | fin (q : ℚ)
  | inf
  deriving DecidableEq, Repr

/-- Models `x >= q` for sentinel values (`Infinity >= q` is true). -/
def QInf.geQ : QInf → ℚ → Bool
  | .inf, _ => true
  | .fin v, q => decide (v ≥ q)

/-- Models `x > q` for sentinel values (`Infinity > q` is true). -/
def QInf.gtQ : QInf → ℚ → Bool
  | .inf, _ => true
  | .fin v, q => decide (v > q)

/-- Models `x < q` for sentinel values (`Infinity < q` is false). -/
def QInf.ltQ : QInf → ℚ → Bool
  | .inf, _ => false
  | .fin v, q => decide (v < q)

/-- JavaScript `x || d` for an optional numeric field: `undefined` and
`0` are falsy and yield the default. -/
def jsOr (v : Option ℚ) (d : ℚ) : ℚ :=
  match v with
  | none => d
  | some q => if q = 0 then d else q

/-- An opportunity as consumed by `MarketTopology`
(`gameId`, `modelProb`, `impliedProb`, and the optional
`confidence`/`edge` fields read with `||` defaults). -/
structure OppT where
  gameId : String
  modelProb : ℚ
  impliedProb : ℚ
  confidence : Option ℚ
  edgeAttr : Option ℚ
  deriving DecidableEq, Repr

/-- Models `MarketSnapshot`: timestamp, raw opportunities, per-game edge and
4D position maps. -/
structure SnapshotT where
  timestamp : ℚ
  opportunities : List OppT
  edges : List (String × ℚ)
  positions : List (String × Vec4 ℚ)
  deriving DecidableEq, Repr

/-- The `MarketSnapshot` constructor. -/
def mkSnapshot (timestamp : ℚ) (opps : List OppT) : SnapshotT :=
  { timestamp := timestamp
    opportunities := opps
    edges := opps.map (fun o => (o.gameId, o.modelProb - o.impliedProb))
    positions := opps.map (fun o =>
      (o.gameId, ⟨o.modelProb - 1/2, o.impliedProb - 1/2,
                  jsOr o.confidence (1/2) - 1/2, jsOr o.edgeAttr 0 * 10⟩)) }

/-- The feature payload of a persistence point
(`{ gameId, type: 'edge', initialEdge }`). -/
structure TrackedFeature where
  gameId : String
  ftype : String
  initialEdge : ℚ
  deriving DecidableEq, Repr

/-- Models `PersistencePoint` (`death = Infinity` while the feature is
alive). -/
structure PersistencePoint where
  birth : ℚ
  death : QInf
  dimension : ℕ
  feature : Option TrackedFeature
  deriving DecidableEq, Repr

/-- The `persistence` getter: `Infinity` while alive, else
`death − birth`. -/
def PersistencePoint.persistence (p : PersistencePoint) : QInf :=
  match p.death with
  | .inf => .inf
  | .fin d => .fin (d - p.birth)

/-- A detected cluster. -/
structure ClusterT where
  members : List ℕ
  gameIds : List String
  centroid : Vec4 ℚ
  size : ℕ
  radius : ℚ
  deriving DecidableEq, Repr

/-- A detected hole (the free-form description strings and per-type
payload fields beyond the involved games are not modelled). -/
structure HoleT where
  htype : String
  gameIds : List String
  significance : ℚ
  deriving DecidableEq, Repr

/-- Models `MarketTopology` configuration defaults. -/
structure TopoConfig where
  maxSnapshots : ℕ := 120
  minPersistence : ℚ := 1/100
  edgeThreshold : ℚ := 2/100
  clusterEpsilon : ℚ := 15/100
  minClusterSize : ℕ := 2
  deriving Repr

/-- Models `MarketTopology` mutable state. -/
structure TopoState where
  snapshots : List SnapshotT
  persistenceDiagram : List PersistencePoint
  clusters : List ClusterT
  holes : List HoleT
  activeFeatures : List (String × PersistencePoint)
  deriving DecidableEq, Repr

/-- The empty `MarketTopology` state (constructor). -/
def initialTopoState : TopoState :=
  { snapshots := [], persistenceDiagram := [], clusters := [],
    holes := [], activeFeatures := [] }

/-- Models `(currentTime - birthTime) / Math.max(1, currentTime - birthTime)`
from `_updatePersistence` — numerator and denominator coincide, so
with millisecond-integer timestamps this is `0` on the very first
snapshot and `1` afterwards. -/
def normalizedTimeOf (snapshots : List SnapshotT) (currentTime : ℚ) : ℚ :=
  let birthTime :=
    match snapshots.head? with
    | some s => s.timestamp
    | none => currentTime
  (currentTime - birthTime) / jsMax 1 (currentTime - birthTime)

/-- One `(gameId, edge)` iteration of the `_updatePersistence` loop,
acting on `(activeFeatures, persistenceDiagram)`. -/
def persistenceStep (cfg : TopoConfig) (normalizedTime : ℚ)
    (acc : List (String × PersistencePoint) × List PersistencePoint)
    (entry : String × ℚ) :
    List (String × PersistencePoint) × List PersistencePoint :=
  let featureId := "edge_" ++ entry.1
  if entry.2 ≥ cfg.edgeThreshold then
    if (lookupKey featureId acc.1).isSome then acc
    else
      (acc.1 ++ [(featureId,
        { birth := normalizedTime, death := QInf.inf, dimension := 0,
          feature := some { gameId := entry.1, ftype := "edge", initialEdge := entry.2 } })],
       acc.2)
  else
    match lookupKey featureId acc.1 with
    | none => acc
    | some point =>
      let point' := { point with death := QInf.fin normalizedTime }
      (eraseKey featureId acc.1,
       if point'.persistence.geQ cfg.minPersistence then acc.2 ++ [point'] else acc.2)

/-- Models `MarketTopology._updatePersistence`: births/deaths for every edge
of the new snapshot, then pruning of diagram entries older than half
the (normalized) window. -/
def updatePersistence (cfg : TopoConfig) (snapshots : List SnapshotT)
    (snapshot : SnapshotT)
    (active : List (String × PersistencePoint))
    (diagram : List PersistencePoint) :
    List (String × PersistencePoint) × List PersistencePoint :=
  let normalizedTime := normalizedTimeOf snapshots snapshot.timestamp
  let stepped := snapshot.edges.foldl (persistenceStep cfg normalizedTime) (active, diagram)
  let cutoff := normalizedTime - 1/2
  (stepped.1,
   stepped.2.filter (fun p => p.death.gtQ cutoff || decide (p.death = QInf.inf)))

/-- Index into the snapshot's position list (total, padding with the
origin; indices fed to it are always in range). -/
def positionAt (positions : List (String × Vec4 ℚ)) (i : ℕ) : Vec4 ℚ :=
  ((positions.get? i).map (fun e => e.2)).getD ⟨0, 0, 0, 0⟩

/-- Distance in 4D between two indexed positions
(`pi.subtract(pj).magnitude()`). -/
def indexDistance (sqrtFn : ℚ → ℚ) (positions : List (String × Vec4 ℚ))
    (i j : ℕ) : ℚ :=
  magnitudeQ sqrtFn (Vec4.sub (positionAt positions i) (positionAt positions j))

/-- The BFS queue loop of `_detectClusters`: pop, skip visited, mark,
collect, enqueue unvisited neighbors within `clusterEpsilon`.  `fuel`
bounds the number of pops (the JS loop terminates because every pop
either discards a visited index or marks a new one, and at most `n`
pushes happen per mark). -/
def clusterBFS (eps : ℚ) (dist : ℕ → ℕ → ℚ) (n : ℕ) :
    ℕ → List ℕ → List ℕ → List ℕ × List ℕ
  | 0, _, visited => ([], visited)
  | _ + 1, [], visited => ([], visited)
  | fuel + 1, current :: queue, visited =>
    if current ∈ visited then clusterBFS eps dist n fuel queue visited
    else
      let visited' := visited ++ [current]
      let neighbors := (List.range n).filter
        (fun j => decide (j ∉ visited') && decide (dist current j < eps))
      let r := clusterBFS eps dist n fuel (queue ++ neighbors) visited'
      (current :: r.1, r.2)

/-- Models `Math.max(...)` over a nonempty list of rationals. -/
def listMax : List ℚ → ℚ
  | [] => 0
  | x :: xs => xs.foldl max x

/-- Build the cluster record for a finished BFS component (centroid,
size, radius). -/
def mkCluster (sqrtFn : ℚ → ℚ) (positions : List (String × Vec4 ℚ))
    (members : List ℕ) : ClusterT :=
  let centroid :=
    ((members.map (positionAt positions)).foldl Vec4.add ⟨0, 0, 0, 0⟩).scale
      (1 / (members.length : ℚ))
  { members := members
    gameIds := members.map (fun i => (((positions.get? i).map (fun e => e.1)).getD ""))
    centroid := centroid
    size := members.length
    radius := listMax (members.map (fun m =>
      magnitudeQ sqrtFn (Vec4.sub (positionAt positions m) centroid))) }

/-- The outer `for (let i = 0; …)` loop of `_detectClusters`,
threading the global visited set. -/
def clusterFold (cfg : TopoConfig) (sqrtFn : ℚ → ℚ)
    (positions : List (String × Vec4 ℚ)) (n : ℕ) :
    List ℕ → List ℕ → List ClusterT → List ClusterT
  | [], _, clusters => clusters
  | i :: rest, visited, clusters =>
    if i ∈ visited then clusterFold cfg sqrtFn positions n rest visited clusters
    else
      let r := clusterBFS cfg.clusterEpsilon (indexDistance sqrtFn positions) n
        (n * n + n + 1) [i] visited
      if r.1.length ≥ cfg.minClusterSize then
        clusterFold cfg sqrtFn positions n rest r.2
          (clusters ++ [mkCluster sqrtFn positions r.1])
      else
        clusterFold cfg sqrtFn positions n rest r.2 clusters

/-- Models `MarketTopology._detectClusters`. -/
def detectClusters (cfg : TopoConfig) (sqrtFn : ℚ → ℚ)
    (snapshot : SnapshotT) : List ClusterT :=
  let positions := snapshot.positions
  let n := positions.length
  if n < cfg.minClusterSize then []
  else clusterFold cfg sqrtFn positions n (List.range n) [] []

/-- Population variance of a list of edges (as in `_detectHoles`
method 1). -/
def edgeVariance (edges : List ℚ) : ℚ :=
  let mean := edges.sum / (edges.length : ℚ)
  (edges.map (fun e => (e - mean) ^ 2)).sum / (edges.length : ℚ)

/-- Models `_detectHoles` method 1: clusters of ≥ 3 members whose member edge
variance exceeds `0.001`. -/
def clusterVarianceHoles (snapshot : SnapshotT) (clusters : List ClusterT) :
    List HoleT :=
  (clusters.filter (fun c => decide (3 ≤ c.members.length))).filterMap (fun c =>
    let edges := c.gameIds.map (fun id => (lookupKey id snapshot.edges).getD 0)
    let v := edgeVariance edges
    if v > 1/1000 then
      some { htype := "cluster_variance", gameIds := c.gameIds,
             significance := min 1 (v * 100) }
    else none)

/-- Models `_detectHoles` method 2: finalized persistence points with
persistence `< 0.1` and initial edge `> 0.05`.  (The significance
division `initialEdge / persistence` is modelled only on finalized
points; a zero persistence would be a JS `Infinity`, modelled as the
rational `0` — no claim observes that value.) -/
def vanishingEdgeHoles (diagram : List PersistencePoint) : List HoleT :=
  diagram.filterMap (fun p =>
    match p.feature with
    | none => none
    | some f =>
      if p.persistence.ltQ (1/10) && decide (f.initialEdge > 5/100) then
        some { htype := "vanishing_edge", gameIds := [f.gameId]
               significance :=
                 match p.persistence with
                 | .fin v => f.initialEdge / v
                 | .inf => 0 }
      else none)

/-- Models `_detectHoles` method 3 inner filter: the opposing partner check
for one fixed opportunity. -/
def opposingWith (edges : List (String × ℚ)) (o1 : OppT) (o2 : OppT) : Option HoleT :=
  let edgeI := (lookupKey o1.gameId edges).getD 0
  let edgeJ := (lookupKey o2.gameId edges).getD 0
  if edgeI * edgeJ < 0 ∧ |edgeI| > 2/100 ∧ |edgeJ| > 2/100 then
    some { htype := "opposing_edges", gameIds := [o1.gameId, o2.gameId],
           significance := |edgeI - edgeJ| }
  else none

/-- Models `_detectHoles` method 3: all unordered pairs of the snapshot's
opportunities with significant edges of opposite sign.  (The JS guard
`opportunities.length >= 2` is implied: fewer than 2 opportunities
yield no pairs.) -/
def opposingEdgeHoles (edges : List (String × ℚ)) : List OppT → List HoleT
  | [] => []
  | o :: rest => rest.filterMap (opposingWith edges o) ++ opposingEdgeHoles edges rest

/-- Models `MarketTopology._detectHoles`: the three rules merged and sorted
by significance descending. -/
def detectHoles (snapshot : SnapshotT) (clusters : List ClusterT)
    (diagram : List PersistencePoint) : List HoleT :=
  sortDescBy (fun h => h.significance)
    (clusterVarianceHoles snapshot clusters ++
     vanishingEdgeHoles diagram ++
     opposingEdgeHoles snapshot.edges snapshot.opportunities)

/-- Trim a history list from the front to a maximum length
(the `while (length > max) shift()` pattern). -/
def trimFront {α : Type} (l : List α) (maxLen : ℕ) : List α :=
  l.drop (l.length - maxLen)

/-- Models `MarketTopology.addSnapshot` followed by `_updateTopology`:
record the snapshot (trimmed window), update persistence, re-detect
clusters and holes. -/
def addSnapshot (cfg : TopoConfig) (sqrtFn : ℚ → ℚ) (st : TopoState)
    (now : ℚ) (opps : List OppT) : TopoState :=
  let snapshot := mkSnapshot now opps
  let snapshots1 := trimFront (st.snapshots ++ [snapshot]) cfg.maxSnapshots
  let stepped := updatePersistence cfg snapshots1 snapshot st.activeFeatures
    st.persistenceDiagram
  let clusters1 := detectClusters cfg sqrtFn snapshot
  { snapshots := snapshots1
    persistenceDiagram := stepped.2
    clusters := clusters1
    holes := detectHoles snapshot clusters1 stepped.2
    activeFeatures := stepped.1 }

/-- Models `MarketTopology.clear`. -/
def clearTopo : TopoState := initialTopoState

/-! ### C10: the persistence part of `exportForVisualization` -/

/-- An exported persistence point: all fields are plain (finite)
rationals. -/
structure ExportedPoint where
  birth : ℚ
  death : ℚ
  dimension : ℕ
  persistence : ℚ
  deriving DecidableEq, Repr

/-- The per-point mapping of the `persistence:` field of
`MarketTopology.exportForVisualization`: the `Infinity` still-alive
sentinel in `death` and `persistence` is replaced by `1`. -/
def exportPersistencePoint (p : PersistencePoint) : ExportedPoint :=
  { birth := p.birth
    death := match p.death with | .inf => 1 | .fin d => d
    dimension := p.dimension
    persistence := match p.persistence with | .inf => 1 | .fin v => v }

/-- The `persistence:` list of `exportForVisualization`. -/
def exportPersistenceDiagram (st : TopoState) : List ExportedPoint :=
  st.persistenceDiagram.map exportPersistencePoint

/-- A still-alive persistence point. -/
def alivePoint : PersistencePoint :=
  { birth := 1/4, death := QInf.inf, dimension := 0, feature := none }

/-- A finalized persistence point. -/
def deadPoint : PersistencePoint :=
  { birth := 0, death := QInf.fin (3/4), dimension := 0, feature := none }

/-- A topology state holding both sample points. -/
def sampleDiagramState : TopoState :=
  { initialTopoState with persistenceDiagram := [alivePoint, deadPoint] }

/-! ### C3: the vanishing-edge scenario -/

/-- An opportunity for game `g1` with the given model probability
against an implied probability of `0.5`. -/
def oppWithEdge (p : ℚ) : OppT :=
  { gameId := "g1", modelProb := p, impliedProb := 1/2,
    confidence := some (7/10), edgeAttr := none }

/-- Tick 1 of scenario A: an empty first snapshot at t = 0 ms. -/
def scnA1 : TopoState := addSnapshot {} (fun q => q) initialTopoState 0 []

/-- Tick 2 of scenario A: game `g1` appears with edge `0.06`
(`> 0.05 > edgeThreshold`) at t = 1000 ms. -/
def scnA2 : TopoState := addSnapshot {} (fun q => q) scnA1 1000 [oppWithEdge (56/100)]

/-- Tick 3 of scenario A: the edge drops to `0` at t = 2000 ms,
finalizing the feature. -/
def scnA3 : TopoState := addSnapshot {} (fun q => q) scnA2 2000 [oppWithEdge (1/2)]

/-- Scenario B: the feature is born on the very first snapshot. -/
def scnB1 : TopoState := addSnapshot {} (fun q => q) initialTopoState 0 [oppWithEdge (56/100)]

/-- Scenario B tick 2: the edge dies at t = 1000 ms. -/
def scnB2 : TopoState := addSnapshot {} (fun q => q) scnB1 1000 [oppWithEdge (1/2)]

/-! ## The combined system (`BotDecisionInterface`) -/

/-- Models `BotDecisionInterface` state: the engine, the topology tracker,
and the decision bookkeeping. -/
structure SystemState where
  geometry : EngineState
  topology : TopoState
  currentDecision : Option Decision
  decisionHistory : List HistoryEntry
  updateCount : ℕ
  deriving Repr

/-- The freshly-constructed interface state (before any `update()`). -/
def initialSystemState : SystemState :=
  { geometry := clearEngine
    topology := initialTopoState
    currentDecision := none
    decisionHistory := []
    updateCount := 0 }

/-- Models `BotDecisionInterface.clear`. -/
def clearSystem (_st : SystemState) : SystemState :=
  { geometry := clearEngine
    topology := clearTopo
    currentDecision := none
    decisionHistory := []
    updateCount := 0 }

/-- Models `BotDecisionInterface.getDecision`: the current decision, or the
empty decision when none exists yet. -/
def getDecision (now : ℚ) (st : SystemState) : Decision :=
  match st.currentDecision with
  | none => createEmptyDecision now
  | some d => d

/-- Models `BotDecisionInterface.removeOpportunity`: delegates to the
geometry engine only — the topology tracker and decision history are
not touched. -/
def removeOpportunitySystem (logFn sqrtFn : ℚ → ℚ) (edgeScale timeScale now : ℚ)
    (st : SystemState) (gid : String) : SystemState :=
  { st with geometry :=
      removeOpportunityEngine logFn sqrtFn edgeScale timeScale now st.geometry gid }

/-- A combined system state whose topology is tracking the live
`g1` edge feature recorded by scenario B's first snapshot. -/
def sampleSystemState : SystemState :=
  { geometry := sampleEngineState
    topology := scnB1
    currentDecision := none
    decisionHistory := []
    updateCount := 1 }

/-! ## C1: crystallization over ℝ

`_updatePortfolioGeometry`'s crystallization score, with `Vec4`
positions over the reals and `Math.sqrt` interpreted as `Real.sqrt`
(so the cosine-similarity claims have their exact algebraic
meaning). -/

open scoped Classical

/-- Models `Vec4.magnitude` over the reals. -/
noncomputable def magnitudeR (v : Vec4 ℝ) : ℝ := Real.sqrt (Vec4.dot v v)

/-- One pair's contribution to the alignment sum in
`_updatePortfolioGeometry`: `dot/(|p||q|)` guarded by `mag > 0`. -/
noncomputable def alignTermR (p q : Vec4 ℝ) : ℝ :=
  if magnitudeR p * magnitudeR q > 0 then
    Vec4.dot p q / (magnitudeR p * magnitudeR q)
  else 0

/-- The `i < j` double-loop alignment sum. -/
noncomputable def alignPairSumR : List (Vec4 ℝ) → ℝ
  | [] => 0
  | p :: rest => (rest.map (fun q => alignTermR p q)).sum + alignPairSumR rest

/-- The crystallization score of `_updatePortfolioGeometry` as a
function of the member positions: `0` for fewer than 2 members, else
the alignment sum divided by the unordered pair count. -/
noncomputable def crystallizationR (ps : List (Vec4 ℝ)) : ℝ :=
  if ps.length > 1 then
    if ((ps.length : ℝ) * ((ps.length : ℝ) - 1) / 2) > 0 then
      alignPairSumR ps / ((ps.length : ℝ) * ((ps.length : ℝ) - 1) / 2)
    else 0
  else 0

/-- Cosine similarity as the spec words it: a pair containing a
zero-magnitude position contributes similarity `0`. -/
noncomputable def cosineSimSpec (p q : Vec4 ℝ) : ℝ :=
  if magnitudeR p = 0 ∨ magnitudeR q = 0 then 0
  else Vec4.dot p q / (magnitudeR p * magnitudeR q)

/-- The spec-side sum of pairwise cosine similarities over all
unordered pairs. -/
noncomputable def cosineSimPairSum : List (Vec4 ℝ) → ℝ
  | [] => 0
  | p :: rest => (rest.map (fun q => cosineSimSpec p q)).sum + cosineSimPairSum rest

/-! ## Theorems -/

/-- Loop invariant: starting at `total ≤ maxTotalExposure`, the final
exposure stays `≤ maxTotalExposure` and equals `total` plus the sum of
the pushed fractions. -/
theorem allocationLoop_invariant (cfg : BotConfig) (l : List EngineAllocation) :
    ∀ total : ℚ, total ≤ cfg.maxTotalExposure →
      (allocationLoop cfg l total).2 ≤ cfg.maxTotalExposure ∧
      (allocationLoop cfg l total).2 = total + fractionSum (allocationLoop cfg l total).1 := by
  induction l with
  | nil => intro total h; simp [allocationLoop, fractionSum]; exact h
  | cons a rest ih =>
    intro total h
    simp only [allocationLoop]
    by_cases hover : total + a.fraction > cfg.maxTotalExposure
    · simp only [if_pos hover]
      by_cases hpush : jsMax 0 (cfg.maxTotalExposure - total) > 1/1000
      · simp only [if_pos hpush]
        have hle : total + jsMax 0 (cfg.maxTotalExposure - total) ≤ cfg.maxTotalExposure := by
          simp only [jsMax, max_def]
          split <;> linarith
        obtain ⟨h1, h2⟩ := ih (total + jsMax 0 (cfg.maxTotalExposure - total)) hle
        refine ⟨h1, ?_⟩
        simp only [fractionSum, List.map_cons, List.sum_cons] at h2 ⊢
        linarith [h2]
      · simp only [if_neg hpush]; exact ih total h
    · simp only [if_neg hover]
      push_neg at hover
      by_cases hpush : a.fraction > 1/1000
      · simp only [if_pos hpush]
        obtain ⟨h1, h2⟩ := ih (total + a.fraction) hover
        refine ⟨h1, ?_⟩
        simp only [fractionSum, List.map_cons, List.sum_cons] at h2 ⊢
        linarith [h2]
      · simp only [if_neg hpush]; exact ih total h

/-- C2: for every opportunity set (raw engine allocations, including
pathological all-same-game inputs) and every configuration with a
nonnegative exposure limit, the sum of the allocation fractions in the
decision never exceeds `maxTotalExposure` (exactly, so in particular
within any epsilon), and the reported `totalExposure` equals that
sum. -/
theorem claim_C2_exposure_cap (cfg : BotConfig) (dtype : DecisionType)
    (raw : List EngineAllocation) (hmax : 0 ≤ cfg.maxTotalExposure) :
    fractionSum (interfaceAllocations cfg dtype raw).1 ≤ cfg.maxTotalExposure ∧
    (interfaceAllocations cfg dtype raw).2 =
      fractionSum (interfaceAllocations cfg dtype raw).1 := by
  unfold interfaceAllocations
  split
  · simpa [fractionSum] using hmax
  · have h := allocationLoop_invariant cfg
      ((sortDescBy (fun a => a.fraction)
        (raw.filter (fun a => decide (a.fraction > 1/1000)))).take cfg.maxAllocations)
      0 hmax
    exact ⟨by have h2 := h.2; rw [zero_add] at h2; rw [← h2]; exact h.1,
           by have h2 := h.2; rw [zero_add] at h2; exact h2⟩

/-- Witness for C2 at a concrete all-same-game input under the default
configuration: the hypotheses hold and the capped sum is `≤ 0.15`. -/
theorem claim_C2_exposure_cap_witness :
    (0 : ℚ) ≤ (({} : BotConfig)).maxTotalExposure ∧
    fractionSum (interfaceAllocations {} DecisionType.EXECUTE sameGameRaw).1 ≤
      (({} : BotConfig)).maxTotalExposure :=
  ⟨by norm_num [BotConfig.maxTotalExposure],
   (claim_C2_exposure_cap {} DecisionType.EXECUTE sameGameRaw
      (by norm_num [BotConfig.maxTotalExposure])).1⟩

/-- C5 counterexample: with exactly 3 executed decisions in the last
60 seconds, `_finalizeDecision` applies no discount (the guard is
`recentExecutions.length > 3`, not `≥ 3`): confidence stays `1`
instead of being multiplied by `0.8`, and no cooldown reason is
recorded. -/
theorem claim_C5_cooldown_counterexample :
    (recentExecutions threeRecentHistory 1000).length = 3 ∧
    (finalizeDecision preCooldownDecision threeRecentHistory 1000).confidence = 1 ∧
    (finalizeDecision preCooldownDecision threeRecentHistory 1000).confidence ≠
      (8/10) * preCooldownDecision.confidence ∧
    (finalizeDecision preCooldownDecision threeRecentHistory 1000).reasons = [] := by
  have hlen : (recentExecutions threeRecentHistory 1000).length = 3 := by
    norm_num [recentExecutions, threeRecentHistory, List.replicate, List.filter]
  have hfin : finalizeDecision preCooldownDecision threeRecentHistory 1000 =
      preCooldownDecision := by
    simp only [finalizeDecision]
    norm_num [hlen, preCooldownDecision]
  refine ⟨hlen, by rw [hfin]; rfl,
    by rw [hfin]; norm_num [preCooldownDecision],
    by rw [hfin]; rfl⟩

/-- C5 amended: the orchestrator multiplies the tick's decision
confidence by `0.8` (and records the cooldown reason) exactly when
MORE than 3 (i.e. at least 4) executed decisions occurred within the
60 seconds of wall time preceding the tick; with 3 or fewer recent
executions the confidence is not discounted. -/
theorem claim_C5_cooldown_amended (d : Decision) (history : List HistoryEntry) (now : ℚ) :
    (finalizeDecision d history now).confidence =
      (if 3 < (recentExecutions history now).length then d.confidence * (8/10)
       else d.confidence) ∧
    (Reason.coolingDown ∈ (finalizeDecision d history now).reasons ↔
      (3 < (recentExecutions history now).length ∨ Reason.coolingDown ∈ d.reasons)) := by
  unfold finalizeDecision
  by_cases hA : (d.execute && decide (d.allocations.length = 0)) = true <;>
    by_cases hB : 3 < (recentExecutions history now).length <;>
      simp only [hA, hB, Bool.false_eq_true, if_true, if_false, ite_true, ite_false,
        Bool.false_and, Bool.and_self, if_pos, if_neg] <;>
    · (try split_ifs) <;> simp_all [List.mem_append]

/-- C4 counterexample: with `modelProbability = NaN` (and every other
input sane), the edge channel of the resulting ChannelVector is `NaN`
(`none`): the `NaN` is NOT coerced to a neutral default at the
channel-mapping boundary — it propagates into the ChannelVector,
refuting the claim that all 6 computed channel values are finite for
every opportunity and context. -/
theorem claim_C4_nan_counterexample :
    (calculateChannels (fun _ => 1) 5 4 oppWithNaN ctxAllMissing).c0 = none ∧
    (calculateChannels (fun _ => 1) 5 4 oppWithNaN ctxAllMissing).c5 = some (1/2) := by
  constructor <;> rfl

/-- C4 amended: `undefined` (missing) inputs are coerced at the
boundary to the defaults of `processOpportunity` (`confidence` 0.5,
`minutesToClose` 60, `correlatedExposure` 0, `marketVolatility` 0.5,
`previousEdge` null, the last yielding the neutral momentum 0.5), and
whenever `modelProbability` and `impliedProbability` are numbers and no
supplied input is `NaN`, all 6 channel values are finite; the mapper
never throws (it is a total function).  `NaN` inputs, however, are not
guarded and propagate into the ChannelVector (see the
counterexample). -/
theorem claim_C4_channel_finiteness_amended (expFn : ℚ → ℚ) (edgeScale timeScale : ℚ)
    (o : OppJ) (c : CtxJ)
    (hmp : ∃ q, o.modelProb = JVal.num q)
    (hip : ∃ q, o.impliedProb = JVal.num q)
    (hconf : o.confidence ≠ JVal.nan)
    (hmin : c.minutesToClose ≠ JVal.nan)
    (hcorr : c.correlatedExposure ≠ JVal.nan)
    (hvol : c.marketVolatility ≠ JVal.nan)
    (hprev : c.previousEdge ≠ JVal.nan) :
    ((calculateChannels expFn edgeScale timeScale o c).c0.isSome ∧
     (calculateChannels expFn edgeScale timeScale o c).c1.isSome ∧
     (calculateChannels expFn edgeScale timeScale o c).c2.isSome ∧
     (calculateChannels expFn edgeScale timeScale o c).c3.isSome ∧
     (calculateChannels expFn edgeScale timeScale o c).c4.isSome ∧
     (calculateChannels expFn edgeScale timeScale o c).c5.isSome) ∧
    (o.confidence = JVal.undef →
      (calculateChannels expFn edgeScale timeScale o c).c1 = some (1/2)) ∧
    (c.correlatedExposure = JVal.undef →
      (calculateChannels expFn edgeScale timeScale o c).c3 = some 0) ∧
    (c.marketVolatility = JVal.undef →
      (calculateChannels expFn edgeScale timeScale o c).c4 = some (1/2)) ∧
    ((c.previousEdge = JVal.undef ∨ c.previousEdge = JVal.jsNull) →
      (calculateChannels expFn edgeScale timeScale o c).c5 = some (1/2)) := by
  obtain ⟨mp, hmp⟩ := hmp
  obtain ⟨ip, hip⟩ := hip
  refine ⟨⟨?_, ?_, ?_, ?_, ?_, ?_⟩, ?_, ?_, ?_, ?_⟩
  · simp [calculateChannels, channel0, hmp, hip, JVal.toJNum, JNum.sub, JNum.mul,
      JNum.jmin, JNum.jmax]
  · rcases hc : o.confidence <;>
      simp_all [calculateChannels, channel1, JVal.withDefault, JVal.toJNum,
        JNum.sub, JNum.jmin]
  · rcases hm : c.minutesToClose <;>
      simp_all [calculateChannels, channel2, JVal.withDefault, JVal.toJNum,
        JNum.mul, JNum.jmin, JNum.jexp, JNum.divC, JNum.neg]
  · rcases hco : c.correlatedExposure <;>
      simp_all [calculateChannels, channel3, JVal.withDefault, JVal.toJNum, JNum.jmin]
  · rcases hv : c.marketVolatility <;>
      simp_all [calculateChannels, channel4, JVal.withDefault, JVal.toJNum, JNum.jmin]
  · rcases hp : c.previousEdge <;>
      simp_all [calculateChannels, channel5, hmp, hip, JVal.withDefault, JVal.toJNum,
        JNum.sub, JNum.add, JNum.mul, JNum.jmin, JNum.jmax]
  · intro h
    simp [calculateChannels, channel1, h, JVal.withDefault, JVal.toJNum,
      JNum.sub, JNum.jmin]
    norm_num [min_def]
  · intro h
    simp [calculateChannels, channel3, h, JVal.withDefault, JVal.toJNum, JNum.jmin]
  · intro h
    simp [calculateChannels, channel4, h, JVal.withDefault, JVal.toJNum, JNum.jmin]
    norm_num [min_def]
  · rintro (h | h) <;> simp [calculateChannels, channel5, h, JVal.withDefault]

/-- Witness for C4 amended at a concrete fully-populated opportunity
and a concrete all-missing context. -/
theorem claim_C4_channel_finiteness_amended_witness :
    (calculateChannels (fun _ => 1/5) 5 4 sampleOppJ ctxAllMissing).c0.isSome ∧
    (calculateChannels (fun _ => 1/5) 5 4 sampleOppJ ctxAllMissing).c5 = some (1/2) :=
  ⟨(claim_C4_channel_finiteness_amended (fun _ => 1/5) 5 4 sampleOppJ ctxAllMissing
      ⟨56/100, rfl⟩ ⟨1/2, rfl⟩ (by simp [sampleOppJ]) (by simp [ctxAllMissing])
      (by simp [ctxAllMissing]) (by simp [ctxAllMissing]) (by simp [ctxAllMissing])).1.1,
   (claim_C4_channel_finiteness_amended (fun _ => 1/5) 5 4 sampleOppJ ctxAllMissing
      ⟨56/100, rfl⟩ ⟨1/2, rfl⟩ (by simp [sampleOppJ]) (by simp [ctxAllMissing])
      (by simp [ctxAllMissing]) (by simp [ctxAllMissing])
      (by simp [ctxAllMissing])).2.2.2.2 (Or.inl rfl)⟩

theorem specArgmax_cons_none {α : Type} {f : α → ℚ} {l : List α} (a : α)
    (h : specArgmax f l = none) : specArgmax f (a :: l) = some a := by
  simp only [specArgmax, h]

theorem specArgmax_cons_some {α : Type} {f : α → ℚ} {l : List α} {b : α} (a : α)
    (h : specArgmax f l = some b) :
    specArgmax f (a :: l) = if f b ≤ f a then some a else some b := by
  simp only [specArgmax, h]

theorem specArgmax_eq_none_iff {α : Type} (f : α → ℚ) (l : List α) :
    specArgmax f l = none ↔ l = [] := by
  cases l with
  | nil => simp [specArgmax]
  | cons a rest =>
    cases hr : specArgmax f rest with
    | none => rw [specArgmax_cons_none a hr]; simp
    | some e => rw [specArgmax_cons_some a hr]; split <;> simp

theorem specArgmax_mem_le {α : Type} (f : α → ℚ) :
    ∀ (l : List α) (d : α), specArgmax f l = some d →
      d ∈ l ∧ ∀ x ∈ l, f x ≤ f d := by
  intro l
  induction l with
  | nil => intro d h; simp [specArgmax] at h
  | cons a rest ih =>
    intro d h
    cases hr : specArgmax f rest with
    | none =>
      rw [specArgmax_cons_none a hr] at h
      simp only [Option.some.injEq] at h
      have hrest : rest = [] := (specArgmax_eq_none_iff f rest).mp hr
      subst hrest
      subst h
      exact ⟨List.mem_singleton_self _, by
        intro x hx; simp only [List.mem_singleton] at hx; subst hx; exact le_refl _⟩
    | some e =>
      rw [specArgmax_cons_some a hr] at h
      obtain ⟨heMem, heMax⟩ := ih e hr
      by_cases hfe : f e ≤ f a
      · rw [if_pos hfe] at h
        simp only [Option.some.injEq] at h
        subst h
        refine ⟨List.mem_cons_self _ _, ?_⟩
        intro x hx
        rcases List.mem_cons.mp hx with h1 | h2
        · subst h1; exact le_refl _
        · exact le_trans (heMax x h2) hfe
      · rw [if_neg hfe] at h
        simp only [Option.some.injEq] at h
        subst h
        refine ⟨List.mem_cons_of_mem _ heMem, ?_⟩
        intro x hx
        rcases List.mem_cons.mp hx with h1 | h2
        · subst h1; exact le_of_not_le hfe
        · exact heMax x h2

theorem detectLoop_from_some {α : Type} (f : α → ℚ) :
    ∀ (l : List α) (c : α), ∃ d, specArgmax f (c :: l) = some d ∧
      detectLoop f l (some c) (f c) = (some d, f d) := by
  intro l
  induction l with
  | nil =>
    intro c
    exact ⟨c, specArgmax_cons_none c (by simp [specArgmax]), rfl⟩
  | cons a rest ih =>
    intro c
    simp only [detectLoop]
    by_cases hca : f a > f c
    · rw [if_pos hca]
      obtain ⟨d, hd1, hd2⟩ := ih a
      refine ⟨d, ?_, hd2⟩
      have hmax := (specArgmax_mem_le f _ d hd1).2
      have hcd : f c < f d :=
        lt_of_lt_of_le hca (hmax a (List.mem_cons_self _ _))
      rw [specArgmax_cons_some c hd1, if_neg (not_le_of_lt hcd)]
    · rw [if_neg hca]
      push_neg at hca
      obtain ⟨d, hd1, hd2⟩ := ih c
      refine ⟨d, ?_, hd2⟩
      cases hr : specArgmax f rest with
      | none =>
        rw [specArgmax_cons_none c hr] at hd1
        simp only [Option.some.injEq] at hd1
        subst hd1
        rw [specArgmax_cons_some _ (specArgmax_cons_none a hr), if_pos hca]
      | some e =>
        rw [specArgmax_cons_some c hr] at hd1
        by_cases hea : f e ≤ f a
        · rw [if_pos (le_trans hea hca)] at hd1
          have hae : specArgmax f (a :: rest) = some a := by
            rw [specArgmax_cons_some a hr, if_pos hea]
          rw [specArgmax_cons_some c hae, if_pos hca]
          exact hd1
        · have hae : specArgmax f (a :: rest) = some e := by
            rw [specArgmax_cons_some a hr, if_neg hea]
          rw [specArgmax_cons_some c hae]
          exact hd1

theorem detectLoop_from_none {α : Type} (f : α → ℚ) :
    ∀ l : List α, (∃ a ∈ l, 0 < f a) →
      ∃ d, specArgmax f l = some d ∧ detectLoop f l none 0 = (some d, f d) := by
  intro l
  induction l with
  | nil => rintro ⟨a, ha, _⟩; cases ha
  | cons a rest ih =>
    rintro ⟨w, hw, hw0⟩
    simp only [detectLoop]
    by_cases ha : f a > 0
    · rw [if_pos ha]
      exact detectLoop_from_some f rest a
    · rw [if_neg ha]
      push_neg at ha
      have hwrest : w ∈ rest := by
        rcases List.mem_cons.mp hw with h1 | h2
        · subst h1; linarith
        · exact h2
      obtain ⟨d, hd1, hd2⟩ := ih ⟨w, hwrest, hw0⟩
      refine ⟨d, ?_, hd2⟩
      have hmax := (specArgmax_mem_le f rest d hd1).2
      have had : f a < f d :=
        lt_of_le_of_lt ha (lt_of_lt_of_le hw0 (hmax w hwrest))
      simp only [specArgmax, hd1]
      rw [if_neg (not_le_of_lt had)]

theorem find_eq_of_agree {α : Type} (p q : α → Bool) :
    ∀ l : List α, (∀ x ∈ l, p x = q x) → l.find? p = l.find? q := by
  intro l
  induction l with
  | nil => intro _; rfl
  | cons a rest ih =>
    intro h
    have ha := h a (List.mem_cons_self _ _)
    simp only [List.find?, ha]
    cases hq : q a with
    | true => rfl
    | false => exact ih (fun x hx => h x (List.mem_cons_of_mem _ hx))

theorem specArgmax_eq_find {α : Type} (f : α → ℚ) :
    ∀ (l : List α) (d : α), specArgmax f l = some d →
      l.find? (fun a => decide (∀ b ∈ l, f b ≤ f a)) = some d := by
  intro l
  induction l with
  | nil => intro d h; simp [specArgmax] at h
  | cons a rest ih =>
    intro d h
    cases hr : specArgmax f rest with
    | none =>
      rw [specArgmax_cons_none a hr] at h
      simp only [Option.some.injEq] at h
      have hrest : rest = [] := (specArgmax_eq_none_iff f rest).mp hr
      subst hrest
      subst h
      simp [List.find?]
    | some e =>
      rw [specArgmax_cons_some a hr] at h
      obtain ⟨heMem, heMax⟩ := specArgmax_mem_le f rest e hr
      by_cases hfe : f e ≤ f a
      · rw [if_pos hfe] at h
        simp only [Option.some.injEq] at h; subst h
        have hpred : decide (∀ b ∈ a :: rest, f b ≤ f a) = true := by
          rw [decide_eq_true_eq]
          intro b hb
          rcases List.mem_cons.mp hb with h1 | h2
          · subst h1; exact le_refl _
          · exact le_trans (heMax b h2) hfe
        simp only [List.find?, hpred]
      · rw [if_neg hfe] at h
        simp only [Option.some.injEq] at h; subst h
        have hnot : decide (∀ b ∈ a :: rest, f b ≤ f a) = false := by
          rw [decide_eq_false_iff_not]
          intro hall
          exact hfe (hall e (List.mem_cons_of_mem _ heMem))
        simp only [List.find?, hnot]
        rw [find_eq_of_agree _ (fun x => decide (∀ b ∈ rest, f b ≤ f x)) rest ?_]
        · exact ih e hr
        · intro x hx
          apply decide_eq_decide.mpr
          constructor
          · intro hall b hb; exact hall b (List.mem_cons_of_mem _ hb)
          · intro hall b hb
            rcases List.mem_cons.mp hb with h1 | h2
            · subst h1
              exact le_trans (le_of_lt (lt_of_not_le hfe)) (hall e heMem)
            · exact hall b h2

/-- For any channel state, the `CLOSING_WINDOW` and `DECAYING_EDGE`
momentum conditions (`momentumMin = −0.02`, `momentumMax = −0.02`)
cover all cases, so at least one attractor always has strictly
positive match strength. -/
theorem attractor_strength_cover (logFn : ℚ → ℚ) (edgeScale timeScale : ℚ) (ch : Chan6) :
    0 < matchAttractor logFn edgeScale timeScale ch closingWindow.conditions ∨
    0 < matchAttractor logFn edgeScale timeScale ch decayingEdge.conditions := by
  rcases le_or_lt ((ch.c5 - 1/2) / 5) (-2/100 : ℚ) with h | h
  · right
    simp only [matchAttractor, decayingEdge, countCond, List.map_cons, List.map_nil,
      List.sum_cons, List.sum_nil]
    norm_num
    split_ifs with hs
    · norm_num
    · exact absurd (by linarith : ((ch.c5 - 1/2) / 5 : ℚ) ≤ -(1/50)) hs
  · left
    have h' : decide ((ch.c5 - 1/2) / 5 ≥ (-2/100 : ℚ)) = true := by
      rw [decide_eq_true_eq]; exact le_of_lt h
    simp only [matchAttractor, closingWindow, countCond, List.map_cons, List.map_nil,
      List.sum_cons, List.sum_nil, h']
    norm_num
    split_ifs <;> norm_num

/-- C6: for every portfolio channel state (and any
`Math.log`/scale parameters), `_detectAttractor` returns exactly the
earliest-declared attractor definition whose match fraction
(`_matchAttractor`, conditions satisfied over conditions specified on
un-scaled channel values) is maximal over the 7 static definitions —
`List.find?` returns the first list entry whose strength is `≥` every
entry's strength — and reports that definition's strength. -/
theorem claim_C6_attractor_argmax (logFn : ℚ → ℚ) (edgeScale timeScale : ℚ) (ch : Chan6) :
    (detectAttractor logFn edgeScale timeScale ch).1 =
      attractorStates.find? (fun a => decide (∀ b ∈ attractorStates,
        matchAttractor logFn edgeScale timeScale ch b.conditions ≤
          matchAttractor logFn edgeScale timeScale ch a.conditions)) ∧
    (detectAttractor logFn edgeScale timeScale ch).2 =
      ((detectAttractor logFn edgeScale timeScale ch).1.map
        (fun d => matchAttractor logFn edgeScale timeScale ch d.conditions)).getD 0 := by
  set f : AttractorDef → ℚ :=
    fun a => matchAttractor logFn edgeScale timeScale ch a.conditions with hf
  have hcov : ∃ a ∈ attractorStates, 0 < f a := by
    rcases attractor_strength_cover logFn edgeScale timeScale ch with h | h
    · have hmem : closingWindow ∈ attractorStates := by
        unfold attractorStates
        exact List.Mem.tail _ (List.Mem.tail _ (List.Mem.head _))
      exact ⟨closingWindow, hmem, h⟩
    · have hmem : decayingEdge ∈ attractorStates := by
        unfold attractorStates
        exact List.Mem.tail _ (List.Mem.tail _ (List.Mem.tail _ (List.Mem.tail _
          (List.Mem.tail _ (List.Mem.head _)))))
      exact ⟨decayingEdge, hmem, h⟩
  obtain ⟨d, hd1, hd2⟩ := detectLoop_from_none f attractorStates hcov
  have hfind := specArgmax_eq_find f attractorStates d hd1
  have hdet : detectAttractor logFn edgeScale timeScale ch = (some d, f d) := hd2
  rw [hdet, hfind]
  exact ⟨rfl, by simp⟩

/-- C7 counterexample: two `queryGeometricState()` calls with no
intervening `update()` — at wall-clock instants 0 and 1 — do NOT
return state objects equal in every field: the returned `timestamp`
field records `Date.now()` of each call. -/
theorem claim_C7_query_counterexample :
    queryGeometricState 5 sampleEngineState 0 ≠ queryGeometricState 5 sampleEngineState 1 ∧
    (queryGeometricState 5 sampleEngineState 0).timestamp = some 0 ∧
    (queryGeometricState 5 sampleEngineState 1).timestamp = some 1 := by
  refine ⟨?_, rfl, rfl⟩
  intro h
  have ht := congrArg GeomQuery.timestamp h
  simp [queryGeometricState, sampleEngineState] at ht

/-- C7 amended: `queryGeometricState()` is read-only and two calls
with no intervening `update()` return results identical in every field
EXCEPT `timestamp`, which records the wall-clock time of each call
(in the degenerate no-geometry branch even the timestamps agree, both
absent). -/
theorem claim_C7_query_idempotent_amended (edgeScale : ℚ) (st : EngineState) (t1 t2 : ℚ) :
    (queryGeometricState edgeScale st t1).executable =
      (queryGeometricState edgeScale st t2).executable ∧
    (queryGeometricState edgeScale st t1).action =
      (queryGeometricState edgeScale st t2).action ∧
    (queryGeometricState edgeScale st t1).attractor =
      (queryGeometricState edgeScale st t2).attractor ∧
    (queryGeometricState edgeScale st t1).attractorStrength =
      (queryGeometricState edgeScale st t2).attractorStrength ∧
    (queryGeometricState edgeScale st t1).confidence =
      (queryGeometricState edgeScale st t2).confidence ∧
    (queryGeometricState edgeScale st t1).portfolioEnergy =
      (queryGeometricState edgeScale st t2).portfolioEnergy ∧
    (queryGeometricState edgeScale st t1).crystallization =
      (queryGeometricState edgeScale st t2).crystallization ∧
    (queryGeometricState edgeScale st t1).channels =
      (queryGeometricState edgeScale st t2).channels ∧
    (queryGeometricState edgeScale st t1).allocations =
      (queryGeometricState edgeScale st t2).allocations ∧
    (queryGeometricState edgeScale st t1).reason =
      (queryGeometricState edgeScale st t2).reason := by
  cases h1 : st.currentAttractor <;> cases h2 : st.portfolioGeometry <;>
    simp [queryGeometricState, h1, h2]

/-- C10: every exported persistence point has finite numeric fields
(the export type is plain `ℚ`): a still-alive point's `Infinity` death
is replaced by `1` and its `Infinity` persistence by `1`, while
finalized points export their finite death and `death − birth`
persistence unchanged. -/
theorem claim_C10_export_no_infinity (st : TopoState) :
    exportPersistenceDiagram st = st.persistenceDiagram.map exportPersistencePoint ∧
    ∀ p ∈ st.persistenceDiagram,
      (p.death = QInf.inf →
        (exportPersistencePoint p).death = 1 ∧
        (exportPersistencePoint p).persistence = 1) ∧
      (∀ d, p.death = QInf.fin d →
        (exportPersistencePoint p).death = d ∧
        (exportPersistencePoint p).persistence = d - p.birth) := by
  refine ⟨rfl, ?_⟩
  intro p _hp
  constructor
  · intro h
    simp [exportPersistencePoint, PersistencePoint.persistence, h]
  · intro d h
    simp [exportPersistencePoint, PersistencePoint.persistence, h]

/-- Witness for C10 at the two sample points. -/
theorem claim_C10_export_no_infinity_witness :
    ((exportPersistencePoint alivePoint).death = 1 ∧
     (exportPersistencePoint alivePoint).persistence = 1) ∧
    ((exportPersistencePoint deadPoint).death = 3/4 ∧
     (exportPersistencePoint deadPoint).persistence = 3/4 - deadPoint.birth) :=
  ⟨((claim_C10_export_no_infinity sampleDiagramState).2 alivePoint
      (List.mem_cons_self _ _)).1 rfl,
   ((claim_C10_export_no_infinity sampleDiagramState).2 deadPoint
      (List.Mem.tail _ (List.Mem.head _))).2 (3/4) rfl⟩

/-- C3: a feature whose edge `0.06` exceeds the threshold on exactly
one snapshot and then drops below it does NOT produce a
`vanishing_edge` hole, contrary to the claim.  The degenerate
normalization `(t−t₀)/max(1, t−t₀)` makes `birth` and `death` both `1`
when the feature is not born on the very first snapshot (scenario A:
persistence `0`, dropped below `minPersistence`, diagram stays empty),
and `birth = 0`, `death = 1` when it is (scenario B: persistence `1`,
kept, but `1 < 0.1` fails); either way the hole list stays empty. -/
theorem claim_C3_no_vanishing_edge_hole :
    -- scenario A: the feature is alive after tick 2, born at normalized time 1
    lookupKey "edge_g1" scnA2.activeFeatures =
      some { birth := 1, death := QInf.inf, dimension := 0,
             feature := some { gameId := "g1", ftype := "edge", initialEdge := 6/100 } } ∧
    -- tick 3 finalizes it with persistence 0: dropped from the diagram, no holes
    scnA3.activeFeatures = [] ∧
    scnA3.persistenceDiagram = [] ∧
    scnA3.holes = [] ∧
    -- scenario B: born on the first snapshot (birth 0), dies with persistence 1:
    -- kept in the diagram but produces no vanishing_edge hole either
    scnB2.persistenceDiagram =
      [{ birth := 0, death := QInf.fin 1, dimension := 0,
         feature := some { gameId := "g1", ftype := "edge", initialEdge := 6/100 } }] ∧
    scnB2.holes = [] := by
  refine ⟨?_, ?_, ?_, ?_, ?_, ?_⟩ <;> with_unfolding_all rfl

/-- C9: before the first `update()` (and again after `clear()`),
`getDecision()` returns the well-formed empty decision — a total value,
not null or an error — with `execute = false`, type WAIT, signal
strength NOISE, null attractor, confidence 0, crystallization 0, no
allocations, `totalExposure = 0`, and the single reason
`'No opportunities processed'`. -/
theorem claim_C9_empty_decision (now : ℚ) (st : SystemState) :
    getDecision now initialSystemState = createEmptyDecision now ∧
    getDecision now (clearSystem st) = createEmptyDecision now ∧
    (createEmptyDecision now).execute = false ∧
    (createEmptyDecision now).type = DecisionType.WAIT ∧
    (createEmptyDecision now).signalStrength = SignalStrength.NOISE ∧
    (createEmptyDecision now).attractor = none ∧
    (createEmptyDecision now).confidence = 0 ∧
    (createEmptyDecision now).crystallization = 0 ∧
    (createEmptyDecision now).allocations = [] ∧
    (createEmptyDecision now).totalExposure = 0 ∧
    (createEmptyDecision now).reasons = [Reason.noOpportunitiesProcessed] :=
  ⟨rfl, rfl, rfl, rfl, rfl, rfl, rfl, rfl, rfl, rfl, rfl⟩

/-! ### C8: `removeOpportunity` -/

theorem lookup_eraseKey_self {β : Type} (k : String) :
    ∀ l : List (String × β), lookupKey k (eraseKey k l) = none := by
  intro l
  induction l with
  | nil => rfl
  | cons a t ih =>
    by_cases h : a.1 = k
    · rw [show eraseKey k (a :: t) = eraseKey k t by simp [eraseKey, List.filter_cons, h]]
      exact ih
    · simp only [eraseKey, List.filter_cons] at ih ⊢
      rw [if_pos (by simpa using h)]
      rw [show lookupKey k (a :: List.filter (fun e => decide (e.1 ≠ k)) t) =
            lookupKey k (List.filter (fun e => decide (e.1 ≠ k)) t) by
          simp [lookupKey, List.find?, h]]
      exact ih

theorem lookup_eraseKey_ne {β : Type} (g k : String) (hgk : g ≠ k) :
    ∀ l : List (String × β), lookupKey g (eraseKey k l) = lookupKey g l := by
  intro l
  induction l with
  | nil => rfl
  | cons a t ih =>
    by_cases h : a.1 = k
    · have hag : a.1 ≠ g := by rw [h]; exact fun hc => hgk hc.symm
      simp only [eraseKey, List.filter_cons] at ih ⊢
      rw [if_neg (by simpa using h)]
      rw [ih]
      simp [lookupKey, List.find?, hag]
    · simp only [eraseKey, List.filter_cons] at ih ⊢
      rw [if_pos (by simpa using h)]
      by_cases hag : a.1 = g
      · simp [lookupKey, List.find?, hag]
      · simpa [lookupKey, List.find?, hag] using ih

/-- C8 amended: `removeOpportunity(gameId)` purges that game's
entries from the geometry engine's opportunity map and edge history,
leaves every other game's entries unchanged, and recomputes the
aggregate portfolio state (and re-detects the attractor) before the
next tick; but the topology tracker's state — snapshot window, active
persistence features, clusters, holes — is NOT purged and keeps its
references to the removed game until they age out. -/
theorem claim_C8_remove_amended (logFn sqrtFn : ℚ → ℚ)
    (edgeScale timeScale now : ℚ) (st : SystemState) (gid : String) :
    lookupKey gid (removeOpportunitySystem logFn sqrtFn edgeScale timeScale now st
      gid).geometry.opportunities = none ∧
    lookupKey gid (removeOpportunitySystem logFn sqrtFn edgeScale timeScale now st
      gid).geometry.edgeHistory = none ∧
    (∀ g, g ≠ gid →
      lookupKey g (removeOpportunitySystem logFn sqrtFn edgeScale timeScale now st
        gid).geometry.opportunities = lookupKey g st.geometry.opportunities) ∧
    (∀ g, g ≠ gid →
      lookupKey g (removeOpportunitySystem logFn sqrtFn edgeScale timeScale now st
        gid).geometry.edgeHistory = lookupKey g st.geometry.edgeHistory) ∧
    (removeOpportunitySystem logFn sqrtFn edgeScale timeScale now st
      gid).geometry.portfolioGeometry =
      updatePortfolioGeometry sqrtFn now (eraseKey gid st.geometry.opportunities) ∧
    (removeOpportunitySystem logFn sqrtFn edgeScale timeScale now st
      gid).topology = st.topology := by
  refine ⟨?_, ?_, ?_, ?_, ?_, rfl⟩
  · exact lookup_eraseKey_self gid st.geometry.opportunities
  · exact lookup_eraseKey_self gid st.geometry.edgeHistory
  · intro g hg; exact lookup_eraseKey_ne g gid hg st.geometry.opportunities
  · intro g hg; exact lookup_eraseKey_ne g gid hg st.geometry.edgeHistory
  · rfl

/-- C8 counterexample: removing `g1` purges the geometry engine's
maps, but the topology tracker still holds the live persistence
feature `edge_g1` and the snapshot window still carries `g1`'s edge —
dangling references the claim says must not remain. -/
theorem claim_C8_remove_counterexample :
    lookupKey "g1" (removeOpportunitySystem (fun q => q) (fun q => q) 5 4 2000
      sampleSystemState "g1").geometry.opportunities = none ∧
    lookupKey "edge_g1" (removeOpportunitySystem (fun q => q) (fun q => q) 5 4 2000
      sampleSystemState "g1").topology.activeFeatures =
      some { birth := 0, death := QInf.inf, dimension := 0,
             feature := some { gameId := "g1", ftype := "edge", initialEdge := 3/50 } } ∧
    (removeOpportunitySystem (fun q => q) (fun q => q) 5 4 2000
      sampleSystemState "g1").topology = sampleSystemState.topology := by
  refine ⟨?_, ?_, ?_⟩ <;> with_unfolding_all rfl

/-- Witness for C8 amended at the concrete sample state: the removed
game is gone from the opportunity map and an unrelated game's entry is
untouched. -/
theorem claim_C8_remove_amended_witness :
    lookupKey "g1" (removeOpportunitySystem (fun q => q) (fun q => q) 5 4 2000
      sampleSystemState "g1").geometry.opportunities = none ∧
    lookupKey "g2" (removeOpportunitySystem (fun q => q) (fun q => q) 5 4 2000
      sampleSystemState "g1").geometry.opportunities =
      lookupKey "g2" sampleSystemState.geometry.opportunities :=
  ⟨(claim_C8_remove_amended (fun q => q) (fun q => q) 5 4 2000
      sampleSystemState "g1").1,
   (claim_C8_remove_amended (fun q => q) (fun q => q) 5 4 2000
      sampleSystemState "g1").2.2.1 "g2" (by decide)⟩

theorem dot_self_nonneg (v : Vec4 ℝ) : 0 ≤ Vec4.dot v v := by
  obtain ⟨x, y, z, w⟩ := v
  simp only [Vec4.dot]
  nlinarith [mul_self_nonneg x, mul_self_nonneg y, mul_self_nonneg z, mul_self_nonneg w]

theorem dot_self_eq_zero_iff (v : Vec4 ℝ) :
    Vec4.dot v v = 0 ↔ v = ⟨0, 0, 0, 0⟩ := by
  obtain ⟨x, y, z, w⟩ := v
  simp only [Vec4.dot, Vec4.mk.injEq]
  constructor
  · intro h
    refine ⟨?_, ?_, ?_, ?_⟩ <;>
      nlinarith [mul_self_nonneg x, mul_self_nonneg y, mul_self_nonneg z,
        mul_self_nonneg w]
  · rintro ⟨rfl, rfl, rfl, rfl⟩; ring

theorem magnitudeR_nonneg (v : Vec4 ℝ) : 0 ≤ magnitudeR v :=
  Real.sqrt_nonneg _

theorem magnitudeR_mul_self (v : Vec4 ℝ) :
    magnitudeR v * magnitudeR v = Vec4.dot v v :=
  Real.mul_self_sqrt (dot_self_nonneg v)

theorem magnitudeR_eq_zero_iff (v : Vec4 ℝ) :
    magnitudeR v = 0 ↔ v = ⟨0, 0, 0, 0⟩ := by
  rw [magnitudeR, Real.sqrt_eq_zero (dot_self_nonneg v)]
  exact dot_self_eq_zero_iff v

theorem alignTermR_eq_cosineSimSpec (p q : Vec4 ℝ) :
    alignTermR p q = cosineSimSpec p q := by
  unfold alignTermR cosineSimSpec
  by_cases hm : magnitudeR p * magnitudeR q > 0
  · rw [if_pos hm, if_neg]
    rintro (h | h) <;> rw [h] at hm <;> simp at hm
  · rw [if_neg hm, if_pos]
    push_neg at hm
    have hz : magnitudeR p * magnitudeR q = 0 :=
      le_antisymm hm (mul_nonneg (magnitudeR_nonneg p) (magnitudeR_nonneg q))
    exact mul_eq_zero.mp hz

theorem alignPairSumR_eq_spec (ps : List (Vec4 ℝ)) :
    alignPairSumR ps = cosineSimPairSum ps := by
  induction ps with
  | nil => rfl
  | cons p rest ih =>
    simp only [alignPairSumR, cosineSimPairSum, ih]
    congr 1
    exact congrArg List.sum (List.map_congr_left (fun q _ => alignTermR_eq_cosineSimSpec p q))

/-- C1: crystallization is `0` for fewer than 2 active opportunities;
for `N ≥ 2` it is exactly the average of the pairwise cosine
similarities of the member positions over all `N(N−1)/2` unordered
pairs, with zero-magnitude members contributing similarity `0`; two
identical nonzero positions give crystallization `1` and two exactly
opposite nonzero positions give `−1`. -/
theorem claim_C1_crystallization :
    (∀ ps : List (Vec4 ℝ), ps.length < 2 → crystallizationR ps = 0) ∧
    (∀ ps : List (Vec4 ℝ), 2 ≤ ps.length →
      crystallizationR ps =
        cosineSimPairSum ps / ((ps.length : ℝ) * ((ps.length : ℝ) - 1) / 2)) ∧
    (∀ p : Vec4 ℝ, p ≠ ⟨0, 0, 0, 0⟩ → crystallizationR [p, p] = 1) ∧
    (∀ p : Vec4 ℝ, p ≠ ⟨0, 0, 0, 0⟩ → crystallizationR [p, Vec4.negate p] = -1) := by
  have hpos : ∀ p : Vec4 ℝ, p ≠ ⟨0, 0, 0, 0⟩ → 0 < Vec4.dot p p := by
    intro p hp
    rcases lt_or_eq_of_le (dot_self_nonneg p) with h | h
    · exact h
    · exact absurd ((dot_self_eq_zero_iff p).mp h.symm) hp
  have hmagpos : ∀ p : Vec4 ℝ, p ≠ ⟨0, 0, 0, 0⟩ →
      0 < magnitudeR p * magnitudeR p := by
    intro p hp
    rw [magnitudeR_mul_self]
    exact hpos p hp
  refine ⟨?_, ?_, ?_, ?_⟩
  · intro ps h
    unfold crystallizationR
    rw [if_neg (by omega)]
  · intro ps h
    unfold crystallizationR
    have h1 : ps.length > 1 := by omega
    have h2 : (2 : ℝ) ≤ (ps.length : ℝ) := by exact_mod_cast h
    rw [if_pos h1, if_pos (by nlinarith), alignPairSumR_eq_spec]
  · intro p hp
    have hm := hmagpos p hp
    unfold crystallizationR
    simp only [List.length_cons, List.length_nil]
    norm_num
    unfold alignPairSumR alignTermR
    simp only [List.map_cons, List.map_nil, List.sum_cons, List.sum_nil]
    rw [if_pos hm, magnitudeR_mul_self,
      show alignPairSumR [p] = 0 from by simp [alignPairSumR]]
    have hd := hpos p hp
    field_simp
  · intro p hp
    have hm := hmagpos p hp
    have hdotneg : Vec4.dot p (Vec4.negate p) = -Vec4.dot p p := by
      obtain ⟨x, y, z, w⟩ := p
      simp only [Vec4.dot, Vec4.negate]
      ring
    have hmagneg : magnitudeR (Vec4.negate p) = magnitudeR p := by
      unfold magnitudeR
      congr 1
      obtain ⟨x, y, z, w⟩ := p
      simp only [Vec4.dot, Vec4.negate]
      ring
    unfold crystallizationR
    simp only [List.length_cons, List.length_nil]
    norm_num
    unfold alignPairSumR alignTermR
    simp only [List.map_cons, List.map_nil, List.sum_cons, List.sum_nil]
    rw [hmagneg, if_pos hm, hdotneg, magnitudeR_mul_self,
      show alignPairSumR [Vec4.negate p] = 0 from by simp [alignPairSumR]]
    have hd := hpos p hp
    field_simp

/-- Witness for C1 at concrete positions `e = (1,0,0,0)` and `−e`. -/
theorem claim_C1_crystallization_witness :
    crystallizationR ([] : List (Vec4 ℝ)) = 0 ∧
    crystallizationR [(⟨1, 0, 0, 0⟩ : Vec4 ℝ), ⟨1, 0, 0, 0⟩] = 1 ∧
    crystallizationR [(⟨1, 0, 0, 0⟩ : Vec4 ℝ),
      Vec4.negate ⟨1, 0, 0, 0⟩] = -1 :=
  ⟨claim_C1_crystallization.1 [] (by simp),
   claim_C1_crystallization.2.2.1 ⟨1, 0, 0, 0⟩
     (by simp [Vec4.mk.injEq]),
   claim_C1_crystallization.2.2.2 ⟨1, 0, 0, 0⟩
     (by simp [Vec4.mk.injEq])⟩

end Vib3
